import Mathlib

/-!
# yanic: the respond collector

A shallow embedding of `respond/collector.go` (the request scheduler, the
response decoder and `saveResponse`) together with the parts of the `runtime`
and `data` packages it touches, of the nodelist output (`output/nodelist`) and
of the filter `no_owner` (`output/filter/noowner`).

Conventions of the embedding

* Go pointers that may be `nil` are `Option` values.
* Go strings are Lean strings; the builtin `len` of a Go string is the length
  of its UTF-8 encoding in bytes (`goLen`).
* `time.Time` and `time.Duration` are integers counting nanoseconds.
* Calls that leave the collector (log lines, registry updates, database
  inserts, socket writes, lock operations) are appended to a trace, in program
  order.
* Everything the operating system or a package outside `respond` decides is a
  field of `Env`.
* Goroutines are not interleaved: every function is run to completion.
-/

namespace Yanic

/-! ## Data model -/

/-- Instants, in nanoseconds: `jsontime.Time`, whose package is absent, taken
to compare (`After`, `Before`) and to shift (`Add`) as the `time.Time` it
wraps. -/
abbrev Time := Int

/-- Spans of time, in nanoseconds (`time.Duration`). -/
abbrev Duration := Int

/-- One millisecond (`time.Millisecond`). -/
def Millisecond : Duration := 1000000

/-- One minute (`time.Minute`). -/
def Minute : Duration := 60 * 1000000000

/-- The builtin `len` of a Go string: the number of bytes of its encoding. -/
def goLen (s : String) : Nat := s.utf8ByteSize

/-- A non-nil `net.IP`: its bytes. -/
structure NetIP where
  octets : List Nat
deriving DecidableEq, Repr

/-- The struct `net.UDPAddr`. -/
structure UDPAddr where
  IP : Option NetIP
  Port : Int
  Zone : String
deriving DecidableEq, Repr

/-- Modelled from the spec: the `data` package is absent; `Owner` is the
optional owner contact of a node. -/
structure Owner where
  Contact : String
deriving DecidableEq, Repr

/-- Modelled from the spec: the `data` package is absent; `Location` is the
optional geo position of a node (coordinates kept as abstract numbers). -/
structure Location where
  Latitude : Int
  Longitude : Int
deriving DecidableEq, Repr

/-- Modelled from the spec: the `data` package is absent; `NodeInfo` carries
the node identifier and the descriptors named in `noowner.Apply`, the
descriptors whose structure the collector never inspects kept as abstract
values. -/
structure NodeInfo where
  NodeID : String
  Network : String
  System : String
  Owner : Option Owner
  Hostname : String
  Location : Option Location
  Software : String
  Hardware : String
  VPN : Bool
  Wireless : Option String
deriving DecidableEq, Repr

/-- Modelled from the spec: the `data` package is absent; `Statistics` carries
its own node identifier and the total client count, the other counters kept
as one abstract value. -/
structure Statistics where
  NodeID : String
  ClientsTotal : Nat
  Rest : String
deriving DecidableEq, Repr

/-- Modelled from the spec: the `data` package is absent; `Neighbours`
carries its own node identifier and the adjacency entries, kept as one
abstract value. -/
structure Neighbours where
  NodeID : String
  Entries : String
deriving DecidableEq, Repr

/-- Modelled from the spec: the `data` package is absent; a decoded response
has up to three optional fragments. -/
structure ResponseData where
  NodeInfo : Option NodeInfo
  Statistics : Option Statistics
  Neighbours : Option Neighbours
deriving DecidableEq, Repr

/-- The struct `runtime.Node`. -/
structure Node where
  Address : Option UDPAddr
  Firstseen : Time
  Lastseen : Time
  Online : Bool
  Statistics : Option Statistics
  Nodeinfo : Option NodeInfo
  Neighbours : Option Neighbours
deriving DecidableEq, Repr

/-- The struct `runtime.Link`; the `float32` quality is kept as an abstract
number. -/
structure Link where
  SourceID : String
  SourceAddress : String
  TargetID : String
  TargetAddress : String
  TQ : Nat
deriving DecidableEq, Repr

/-- The method `Node.IsGateway`. -/
def Node.IsGateway (node : Node) : Bool :=
  match node.Nodeinfo with
  | some info => info.VPN
  | none => false

/-! ## The registry -/

/-- Modelled from the spec: `runtime/nodes.go` is absent; the registry is the
map from node identifier to node (`Nodes.List` in the source), here an
association list with at most one entry per identifier. -/
structure Nodes where
  list : List (String × Node)
deriving DecidableEq, Repr

/-- The node stored under an identifier, if any. -/
def Nodes.find (nodes : Nodes) (nodeID : String) : Option Node :=
  (nodes.list.find? (fun e => e.1 == nodeID)).map Prod.snd

/-- Stores a node under an identifier, replacing the entry if there is one. -/
def Nodes.store (nodes : Nodes) (nodeID : String) (node : Node) : Nodes :=
  if nodes.list.any (fun e => e.1 == nodeID) then
    { list := nodes.list.map (fun e => if e.1 == nodeID then (nodeID, node) else e) }
  else
    { list := nodes.list ++ [(nodeID, node)] }

/-- Modelled from the spec: `runtime/nodes.go` is absent. `Update` looks the
node up by identifier, creates it if absent with `Firstseen = now`, merges each
non-nil fragment over the existing one, sets `Lastseen = now` and
`Online = true`, and returns the mutated node (here with the new registry). -/
def Nodes.Update (nodes : Nodes) (now : Time) (nodeID : String) (res : ResponseData) :
    Nodes × Node :=
  let node : Node :=
    match nodes.find nodeID with
    | some node => node
    | none =>
      { Address := none, Firstseen := now, Lastseen := 0, Online := false,
        Statistics := none, Nodeinfo := none, Neighbours := none }
  let node : Node :=
    { node with
      Lastseen := now
      Online := true
      Neighbours := match res.Neighbours with
        | some val => some val
        | none => node.Neighbours
      Nodeinfo := match res.NodeInfo with
        | some val => some val
        | none => node.Nodeinfo
      Statistics := match res.Statistics with
        | some val => some val
        | none => node.Statistics }
  (nodes.store nodeID node, node)

/-- Modelled from the spec: `runtime/nodes.go` is absent. `Select` returns
every node of the registry for which the predicate holds. -/
def Nodes.Select (nodes : Nodes) (f : Node → Bool) : List Node :=
  (nodes.list.map Prod.snd).filter f

/-! ## Sockets and configuration -/

/-- An open `*net.UDPConn`: an identity and the address `LocalAddr()`
reports. -/
structure UDPConn where
  id : Nat
  LocalAddr : UDPAddr
deriving DecidableEq, Repr

/-- The struct `multicastConn`. -/
structure multicastConn where
  Conn : UDPConn
  SendRequest : Bool
  MulticastAddress : Option NetIP
deriving DecidableEq, Repr

/-- The struct `InterfaceConfig`. -/
structure InterfaceConfig where
  InterfaceName : String
  IPAddress : String
  SendNoRequest : Bool
  MulticastAddress : String
  Port : Int
deriving DecidableEq, Repr

/-- An element of `iface.Addrs()`: a `*net.IPNet` with its address, or an
address of another dynamic type. -/
inductive IfaceAddr where
  | ipnet (ip : NetIP)
  | other
deriving DecidableEq, Repr

/-- Modelled from the spec: `respond/respond.go` is absent; a received
datagram is the sender address and the raw payload. -/
structure Response where
  Address : Option UDPAddr
  Raw : List Nat
deriving DecidableEq, Repr

/-! ## The nodelist output: data -/

/-- The struct `nodelist.Position`; the `float64` coordinates are kept as
abstract numbers. -/
structure Nodelist.Position where
  Lat : Int
  Long : Int
deriving DecidableEq, Repr

/-- The anonymous struct of the field `Status` of `nodelist.Node`. -/
structure Nodelist.Status where
  Online : Bool
  LastContact : Time
  Clients : Nat
deriving DecidableEq, Repr

/-- The struct `nodelist.Node`. -/
structure Nodelist.Node where
  ID : String
  Name : String
  Position : Option Nodelist.Position
  Status : Nodelist.Status
deriving DecidableEq, Repr

/-- The struct `nodelist.NodeList`. -/
structure Nodelist.NodeList where
  Version : String
  Timestamp : Time
  List : List Nodelist.Node
deriving DecidableEq, Repr

/-- The struct `nodelist.Output`. -/
structure Nodelist.Output where
  path : String
deriving DecidableEq, Repr

/-! ## Traces -/

/-- The log lines of `collector.go`, one constructor per call site. -/
inductive LogMsg where
  | sendingMulticasts
  | unableToFindConnection (zone : String)
  | sendingUnicasts (count : Nat) (nodes : Nat)
  | writeToUDPFailed (err : String)
  | unableToDecode (addr : Option UDPAddr) (err : String)
  | invalidNodeID (nodeID : String) (addr : Option UDPAddr)
deriving DecidableEq, Repr

/-- The calls by which the collector and the nodelist output act on their
surroundings: `nodeLinks` is a call of `Nodes.NodeLinks`, `rangeNodes` the
start of a loop over `Nodes.List`, `saveJSON` a call of `runtime.SaveJSON`. -/
inductive Event where
  | log (msg : LogMsg)
  | update (nodeID : String) (res : ResponseData)
  | insertNode (node : Node)
  | insertLink (link : Link) (time : Time)
  | rlock
  | runlock
  | writeToUDP (conn : UDPConn) (payload : String) (addr : UDPAddr)
  | listenUDP (laddr : UDPAddr)
  | setReadBuffer (conn : UDPConn) (bytes : Int)
  | goReceiver (conn : UDPConn)
  | goSender
  | sleep (d : Duration)
  | nodeLinks (node : Node)
  | rangeNodes
  | saveJSON (input : Nodelist.NodeList) (outputFile : String)
deriving DecidableEq, Repr

/-- What lies outside `collector.go`: the clock, the network stack, the
decoder libraries, the link derivation of the registry and the constants of
`respond.go`. -/
structure Env where
  /-- The successive readings of `jsontime.Now()`. -/
  clock : Nat → Time
  /-- The function `Nodes.NodeLinks` of the absent `runtime/nodes.go`. -/
  NodeLinks : Nodes → Node → List Link
  /-- The function `net.ParseIP`; `none` is the nil address. -/
  ParseIP : String → Option NetIP
  /-- The calls `net.InterfaceByName` and then `Addrs`. -/
  InterfaceAddrs : String → Except String (List IfaceAddr)
  /-- The method `IP.IsGlobalUnicast`. -/
  IsGlobalUnicast : NetIP → Bool
  /-- The method `IP.IsLinkLocalUnicast`. -/
  IsLinkLocalUnicast : NetIP → Bool
  /-- The function `net.ListenUDP` on network `udp`. -/
  ListenUDP : UDPAddr → Except String UDPConn
  /-- The error of `conn.WriteToUDP`, if any. -/
  WriteToUDP : UDPConn → String → UDPAddr → Option String
  /-- Inflating the payload and decoding the JSON document. -/
  decode : List Nat → Except String ResponseData
  /-- The constant `multicastAddressDefault`. -/
  multicastAddressDefault : String
  /-- The constant `port`. -/
  port : Int
  /-- The constant `maxDataGramSize`. -/
  maxDataGramSize : Int

/-- The struct `Collector`: `db` tells whether the database connection is
non-nil, `ticks` counts the clock readings taken so far and `trace` is the
record of the calls made so far. The channels and `sitesDomains` play no part
in the functions embedded here. -/
structure Collector where
  connections : List multicastConn
  db : Bool
  nodes : Nodes
  interval : Duration
  ticks : Nat
  trace : List Event
deriving DecidableEq, Repr

/-- How a call ends: it returns, or it panics with a message. -/
inductive Outcome where
  | returned
  | panicked (msg : String)
deriving DecidableEq, Repr

/-- Appends calls to the trace. -/
def Collector.emit (coll : Collector) (evs : List Event) : Collector :=
  { coll with trace := coll.trace ++ evs }

/-! ## saveResponse -/

/-- The search for the node identifier at the head of `saveResponse`. -/
def candidateNodeID (res : ResponseData) : String :=
  match res.NodeInfo with
  | some val => val.NodeID
  | none =>
    match res.Neighbours with
    | some val => val.NodeID
    | none =>
      match res.Statistics with
      | some val => val.NodeID
      | none => ""

/-- The three assignments of `saveResponse` that set a field to nil if its
identifier is inconsistent, in the order of the source. -/
def nullInconsistent (nodeID : String) (res : ResponseData) : ResponseData :=
  let res : ResponseData :=
    match res.Statistics with
    | some val => if val.NodeID ≠ nodeID then { res with Statistics := none } else res
    | none => res
  let res : ResponseData :=
    match res.Neighbours with
    | some val => if val.NodeID ≠ nodeID then { res with Neighbours := none } else res
    | none => res
  let res : ResponseData :=
    match res.NodeInfo with
    | some val => if val.NodeID ≠ nodeID then { res with NodeInfo := none } else res
    | none => res
  res

/-- The method `Collector.saveResponse`. -/
def Collector.saveResponse (env : Env) (coll : Collector) (addr : Option UDPAddr)
    (res : ResponseData) : Collector :=
  let nodeID := candidateNodeID res
  if goLen nodeID ≠ 12 then
    coll.emit [Event.log (LogMsg.invalidNodeID nodeID addr)]
  else
    let res := nullInconsistent nodeID res
    -- node := coll.nodes.Update(nodeID, res)
    let now := env.clock coll.ticks
    let updated := coll.nodes.Update now nodeID res
    let coll : Collector :=
      { coll with ticks := coll.ticks + 1, nodes := updated.1,
                  trace := coll.trace ++ [Event.update nodeID res] }
    -- node.Address = addr
    let node : Node := { updated.2 with Address := addr }
    let coll : Collector := { coll with nodes := coll.nodes.store nodeID node }
    if coll.db then
      let coll := coll.emit [Event.insertNode node]
      match node.Neighbours with
      | some _ =>
        let coll := coll.emit [Event.rlock]
        let coll := coll.emit [Event.nodeLinks node]
        let coll := coll.emit
          ((env.NodeLinks coll.nodes node).map (fun link => Event.insertLink link node.Lastseen))
        coll.emit [Event.runlock]
      | none => coll
    else
      coll

/-! ## Sending requests -/

/-- The request every `sendPacket` writes. -/
def requestPayload : String := "GET nodeinfo statistics neighbours"

/-- The method `Collector.sendPacket`. -/
def Collector.sendPacket (env : Env) (coll : Collector) (conn : UDPConn)
    (destination : Option NetIP) : Collector :=
  let addr : UDPAddr :=
    { IP := destination, Port := env.port, Zone := conn.LocalAddr.Zone }
  let coll := coll.emit [Event.writeToUDP conn requestPayload addr]
  match env.WriteToUDP conn requestPayload addr with
  | some err => coll.emit [Event.log (LogMsg.writeToUDPFailed err)]
  | none => coll

/-- The method `Collector.sendMulticast`. -/
def Collector.sendMulticast (env : Env) (coll : Collector) : Collector :=
  let coll := coll.emit [Event.log LogMsg.sendingMulticasts]
  coll.connections.foldl
    (fun c conn =>
      if conn.SendRequest then c.sendPacket env conn.Conn conn.MulticastAddress else c)
    coll

/-- The closure `sendUnicasts` hands to `Select`: `After` and `Before` of
`time.Time` are strict. -/
def unicastFilter (seenAfter seenBefore : Time) (n : Node) : Bool :=
  decide (n.Lastseen > seenAfter) && decide (n.Lastseen < seenBefore) && n.Address.isSome

/-- The nodes `sendUnicasts` selects. -/
def Collector.unicastNodes (coll : Collector) (seenBefore : Time) : List Node :=
  let seenAfter := seenBefore + (-Minute * 10)
  coll.nodes.Select (unicastFilter seenAfter seenBefore)

/-- The inner loop of `sendUnicasts` for a node with the given address: the
collector afterwards and the value of `send`. -/
def Collector.sendUnicast (env : Env) (coll : Collector) (address : UDPAddr) :
    Collector × Nat :=
  coll.connections.foldl
    (fun (st : Collector × Nat) conn =>
      if address.Zone ≠ "" && conn.Conn.LocalAddr.Zone ≠ address.Zone then st
      else (st.1.sendPacket env conn.Conn address.IP, st.2 + 1))
    (coll, 0)

/-- The body of the outer loop of `sendUnicasts`: the collector and the
value of `count` afterwards. A selected node has an address; dereferencing a
nil address would stop the Go program, which `Select` rules out, and the
embedding passes such a node over. -/
def Collector.sendUnicastsStep (env : Env) (st : Collector × Nat) (node : Node) :
    Collector × Nat :=
  match node.Address with
  | none => st
  | some address =>
    let r := st.1.sendUnicast env address
    if r.2 = 0 then
      (r.1.emit [Event.log (LogMsg.unableToFindConnection address.Zone)], st.2)
    else
      (r.1.emit [Event.sleep (10 * Millisecond)], st.2 + r.2)

/-- The method `Collector.sendUnicasts`. -/
def Collector.sendUnicasts (env : Env) (coll : Collector) (seenBefore : Time) : Collector :=
  let nodes := coll.unicastNodes seenBefore
  let st := nodes.foldl (Collector.sendUnicastsStep env) (coll, 0)
  st.1.emit [Event.log (LogMsg.sendingUnicasts st.2 nodes.length)]

/-- The method `Collector.sendOnce`. -/
def Collector.sendOnce (env : Env) (coll : Collector) : Collector :=
  let now := env.clock coll.ticks
  let coll : Collector := { coll with ticks := coll.ticks + 1 }
  let coll := coll.sendMulticast env
  let coll := coll.emit [Event.sleep (Int.tdiv coll.interval 2)]
  coll.sendUnicasts env now

/-! ## Starting -/

/-- The method `Collector.Start`: the collector afterwards and how the call
ended. The goroutine it spawns is recorded, not run. -/
def Collector.Start (coll : Collector) (interval : Duration) : Collector × Outcome :=
  if coll.interval ≠ 0 then
    (coll, Outcome.panicked "already started")
  else if interval ≤ 0 then
    (coll, Outcome.panicked "invalid collector interval")
  else
    ({ coll with interval := interval, trace := coll.trace ++ [Event.goSender] },
      Outcome.returned)

/-! ## Opening sockets -/

/-- The loop of `getUnicastAddr`: the last address of the wanted class. -/
def pickUnicast (env : Env) (linklocal : Bool) (addresses : List IfaceAddr) : Option NetIP :=
  addresses.foldl
    (fun ip addr =>
      match addr with
      | IfaceAddr.other => ip
      | IfaceAddr.ipnet a =>
        if (!linklocal && env.IsGlobalUnicast a) || (linklocal && env.IsLinkLocalUnicast a)
        then some a else ip)
    none

/-- The function `getUnicastAddr`. -/
def getUnicastAddr (env : Env) (ifname : String) (linklocal : Bool) : Except String NetIP :=
  match env.InterfaceAddrs ifname with
  | Except.error err => Except.error err
  | Except.ok addresses =>
    match pickUnicast env linklocal addresses with
    | some ip => Except.ok ip
    | none => Except.error ("unable to find a unicast address for " ++ ifname)

/-- The first statement of `listenUDP`: the bind address, or the error it
panics with. -/
def bindAddress (env : Env) (iface : InterfaceConfig) : Except String (Option NetIP) :=
  if iface.IPAddress ≠ "" then
    Except.ok (env.ParseIP iface.IPAddress)
  else
    match getUnicastAddr env iface.InterfaceName (iface.MulticastAddress == "") with
    | Except.error err => Except.error err
    | Except.ok ip => Except.ok (some ip)

/-- The method `Collector.listenUDP`: the collector afterwards and how the
call ended. -/
def Collector.listenUDP (env : Env) (coll : Collector) (iface : InterfaceConfig) :
    Collector × Outcome :=
  match bindAddress env iface with
  | Except.error err => (coll, Outcome.panicked err)
  | Except.ok addr =>
    let multicastAddress :=
      if iface.MulticastAddress ≠ "" then iface.MulticastAddress
      else env.multicastAddressDefault
    let laddr : UDPAddr := { IP := addr, Port := iface.Port, Zone := iface.InterfaceName }
    let coll := coll.emit [Event.listenUDP laddr]
    match env.ListenUDP laddr with
    | Except.error err => (coll, Outcome.panicked err)
    | Except.ok conn =>
      let coll := coll.emit [Event.setReadBuffer conn env.maxDataGramSize]
      let coll : Collector :=
        { coll with
          connections := coll.connections ++
            [{ Conn := conn, SendRequest := !iface.SendNoRequest,
               MulticastAddress := env.ParseIP multicastAddress }] }
      (coll.emit [Event.goReceiver conn], Outcome.returned)

/-! ## Decoding -/

/-- The method `Response.parse`. -/
def Response.parse (env : Env) (res : Response) : Except String ResponseData :=
  env.decode res.Raw

/-- The method `Collector.parser`, run on the datagrams the queue delivers,
in the order it delivers them. -/
def Collector.parser (env : Env) (coll : Collector) : List Response → Collector
  | [] => coll
  | obj :: queue =>
    match obj.parse env with
    | Except.error err =>
      Collector.parser env (coll.emit [Event.log (LogMsg.unableToDecode obj.Address err)]) queue
    | Except.ok data =>
      Collector.parser env (coll.saveResponse env obj.Address data) queue

/-! ## The nodelist output -/

/-- The function `nodelist.NewNode`; `none` is the nil result. -/
def Nodelist.NewNode (n : Yanic.Node) : Option Nodelist.Node :=
  match n.Nodeinfo with
  | none => none
  | some nodeinfo =>
    some
      { ID := nodeinfo.NodeID
        Name := nodeinfo.Hostname
        Position :=
          match nodeinfo.Location with
          | some location => some { Lat := location.Latitude, Long := location.Longitude }
          | none => none
        Status :=
          { Online := n.Online
            LastContact := n.Lastseen
            Clients :=
              match n.Statistics with
              | some statistics => if n.Online then statistics.ClientsTotal else 0
              | none => 0 } }

/-- The function `nodelist.transform`, given the reading of `jsontime.Now()`;
the loop runs over the registry in the order of the association list. -/
def Nodelist.transform (now : Time) (nodes : Nodes) : Nodelist.NodeList :=
  { Version := "1.0.1"
    Timestamp := now
    List := nodes.list.filterMap (fun entry => Nodelist.NewNode entry.2) }

/-- The method `Output.Save` of the nodelist output: the calls it makes, in
order, the deferred `RUnlock` last. The call of `transform` is the reading of
the clock and the loop over `nodes.List`. -/
def Nodelist.Output.Save (env : Env) (o : Nodelist.Output) (nodes : Nodes) (ticks : Nat) :
    List Event :=
  -- nodes.RLock(); defer nodes.RUnlock()
  [Event.rlock]
    -- transform(nodes)
    ++ [Event.rangeNodes]
    -- runtime.SaveJSON(..., o.path)
    ++ [Event.saveJSON (Nodelist.transform (env.clock ticks) nodes) o.path]
    -- the deferred call
    ++ [Event.runlock]

/-! ## The filter no_owner -/

/-- A value of the empty interface handed to a filter's `build`: a boolean,
or anything else. -/
inductive FilterConfig where
  | bool (value : Bool)
  | other (value : String)
deriving DecidableEq, Repr

/-- The struct `noowner`. -/
structure noowner where
  has : Bool
deriving DecidableEq, Repr

/-- The function `build` of the package `noowner`. -/
def noowner.build (config : FilterConfig) : Except String noowner :=
  match config with
  | FilterConfig.bool value => Except.ok { has := value }
  | FilterConfig.other _ => Except.error "invalid configuration, boolean expected"

/-- The nodes in memory: a non-nil `*runtime.Node` is the position of a node
in this list, and a node allocated anew is appended to it. -/
abbrev NodeHeap := List Node

/-- The method `noowner.Apply`: the memory afterwards and the pointer
returned; `none` if the argument points to no node, where the Go program
stops at the dereference. -/
def noowner.Apply (no : noowner) (heap : NodeHeap) (node : Nat) : Option (NodeHeap × Nat) :=
  match heap[node]? with
  | none => none
  | some n =>
    match n.Nodeinfo, no.has with
    | some nodeinfo, true =>
      some
        (heap ++
          [{ Address := n.Address
             Firstseen := n.Firstseen
             Lastseen := n.Lastseen
             Online := n.Online
             Statistics := n.Statistics
             Nodeinfo := some
               { NodeID := nodeinfo.NodeID
                 Network := nodeinfo.Network
                 System := nodeinfo.System
                 Owner := none
                 Hostname := nodeinfo.Hostname
                 Location := nodeinfo.Location
                 Software := nodeinfo.Software
                 Hardware := nodeinfo.Hardware
                 VPN := nodeinfo.VPN
                 Wireless := nodeinfo.Wireless }
             Neighbours := n.Neighbours }],
         heap.length)
    | _, _ => some (heap, node)

/-! ## Reading traces -/

/-- Whether a call walks the registry or hands on what a walk found: a call
of `NodeLinks`, an `InsertLink` of one of its links, a loop over the node
list, the writing of a snapshot. -/
def Event.traverses : Event → Bool
  | Event.nodeLinks _ => true
  | Event.insertLink _ _ => true
  | Event.rangeNodes => true
  | Event.saveJSON _ _ => true
  | _ => false

/-- Runs through a trace with the number of read locks held at its start:
`RUnlock` must find a lock held and gives it up, a traversal must find a lock
held, and at the end no lock is held. -/
def readLockDiscipline : Nat → List Event → Bool
  | held, [] => held == 0
  | held, Event.rlock :: rest => readLockDiscipline (held + 1) rest
  | held, Event.runlock :: rest => decide (0 < held) && readLockDiscipline (held - 1) rest
  | held, e :: rest => (!e.traverses || decide (0 < held)) && readLockDiscipline held rest

/-- The calls made between two states of the collector. -/
def newEvents (before after : Collector) : List Event :=
  after.trace.drop before.trace.length

/-- The arguments of the calls of `Nodes.Update` in a trace. -/
def updateCalls (trace : List Event) : List (String × ResponseData) :=
  trace.filterMap (fun e =>
    match e with
    | Event.update nodeID res => some (nodeID, res)
    | _ => none)

/-- Whether a call reaches the registry or the database. -/
def Event.touchesNodes : Event → Bool
  | Event.update _ _ => true
  | Event.insertNode _ => true
  | Event.insertLink _ _ => true
  | _ => false

/-- The calls `saveResponse` makes to store a node in the database, given the
registry at that moment. -/
def databaseCalls (env : Env) (nodes : Nodes) (node : Node) : List Event :=
  Event.insertNode node ::
    match node.Neighbours with
    | some _ =>
      Event.rlock :: Event.nodeLinks node ::
        ((env.NodeLinks nodes node).map (fun link => Event.insertLink link node.Lastseen)
          ++ [Event.runlock])
    | none => []

/-- The calls of one `sendPacket`: the write, and a log line if it fails. -/
def sendPacketCalls (env : Env) (conn : UDPConn) (destination : Option NetIP) : List Event :=
  Event.writeToUDP conn requestPayload
      { IP := destination, Port := env.port, Zone := conn.LocalAddr.Zone } ::
    match env.WriteToUDP conn requestPayload
        { IP := destination, Port := env.port, Zone := conn.LocalAddr.Zone } with
    | some err => [Event.log (LogMsg.writeToUDPFailed err)]
    | none => []

/-- The writes to sockets in a trace. -/
def writeCalls (trace : List Event) : List Event :=
  trace.filter (fun e =>
    match e with
    | Event.writeToUDP _ _ _ => true
    | _ => false)

/-- A socket serves an address if the address has no zone or the zone of the
socket's local address is the zone of the address. -/
def servesZone (address : UDPAddr) (conn : multicastConn) : Bool :=
  decide (address.Zone = "") || decide (conn.Conn.LocalAddr.Zone = address.Zone)

/-- The unicast phase for one node, in the words of the scheduler's
description: a request to the node's IP on every socket that serves its
address, then a pause; a log line and nothing else if no socket does. -/
def unicastCalls (env : Env) (conns : List multicastConn) (node : Node) : List Event :=
  match node.Address with
  | none => []
  | some address =>
    ((conns.filter (servesZone address)).flatMap
        (fun conn => sendPacketCalls env conn.Conn address.IP))
      ++ (if (conns.filter (servesZone address)).length = 0
          then [Event.log (LogMsg.unableToFindConnection address.Zone)]
          else [Event.sleep (10 * Millisecond)])

/-- The number of requests the unicast phase sends for one node. -/
def unicastCount (conns : List multicastConn) (node : Node) : Nat :=
  match node.Address with
  | none => 0
  | some address => (conns.filter (servesZone address)).length

/-- Whether a call is the log line `parser` writes for a datagram it cannot
decode. -/
def Event.isDecodeLog : Event → Bool
  | Event.log (LogMsg.unableToDecode _ _) => true
  | _ => false

/-- The collector with the decode log lines taken out of its trace. -/
def Collector.dropDecodeLogs (coll : Collector) : Collector :=
  { coll with trace := coll.trace.filter (fun e => !e.isDecodeLog) }

/-- The datagrams of a queue whose parse succeeds, in the order of the
queue, each as its sender address and its decoded record. -/
def parsedResponses (env : Env) (queue : List Response) :
    List (Option UDPAddr × ResponseData) :=
  queue.filterMap (fun obj =>
    match obj.parse env with
    | Except.ok data => some (obj.Address, data)
    | Except.error _ => none)

/-- The log lines for the datagrams of a queue whose parse fails, in the
order of the queue. -/
def decodeFailures (env : Env) (queue : List Response) : List Event :=
  queue.filterMap (fun obj =>
    match obj.parse env with
    | Except.ok _ => none
    | Except.error err => some (Event.log (LogMsg.unableToDecode obj.Address err)))

/-! ## Sample values -/

/-- A sample environment: a clock starting at 1000, one link per node with
neighbours, an interface with one address of each class. -/
def sampleEnv : Env where
  clock := fun k => 1000 + k
  NodeLinks := fun _ node =>
    match node.Neighbours with
    | some nb => [{ SourceID := nb.NodeID, SourceAddress := "a", TargetID := "ffeeddccbbaa",
                    TargetAddress := "b", TQ := 255 }]
    | none => []
  ParseIP := fun s =>
    if s = "ff02::2:1001" then some ⟨[255, 2, 0, 0, 0, 0, 0, 0, 0, 0, 0, 0, 0, 2, 16, 1]⟩
    else if s = "ff05::2:1001" then some ⟨[255, 5, 0, 0, 0, 0, 0, 0, 0, 0, 0, 0, 0, 2, 16, 1]⟩
    else if s = "10.0.0.1" then some ⟨[10, 0, 0, 1]⟩
    else none
  InterfaceAddrs := fun ifname =>
    if ifname = "eth0" then
      Except.ok [IfaceAddr.other, IfaceAddr.ipnet ⟨[10, 0, 0, 2]⟩, IfaceAddr.ipnet ⟨[254, 128, 1]⟩]
    else if ifname = "lo" then Except.ok []
    else Except.error "no such network interface"
  IsGlobalUnicast := fun ip => ip.octets.head? = some 10
  IsLinkLocalUnicast := fun ip => ip.octets.head? = some 254
  ListenUDP := fun laddr => Except.ok { id := 7, LocalAddr := laddr }
  WriteToUDP := fun _ _ addr => if addr.IP = none then some "invalid address" else none
  decode := fun raw =>
    match raw with
    | [1] => Except.ok { NodeInfo := none, Statistics := none, Neighbours := none }
    | [2] => Except.ok
        { NodeInfo := none, Statistics := none,
          Neighbours := some { NodeID := "aabbccddeeff", Entries := "n" } }
    | _ => Except.error "flate: corrupt input"
  multicastAddressDefault := "ff02::2:1001"
  port := 1001
  maxDataGramSize := 8192

/-- A collector that has no socket, no database and no node. -/
def emptyCollector : Collector :=
  { connections := [], db := false, nodes := { list := [] }, interval := 0, ticks := 0,
    trace := [] }

/-- A sender address. -/
def sampleAddr : UDPAddr := { IP := some ⟨[10, 0, 0, 9]⟩, Port := 1001, Zone := "eth0" }

/-- An address without a zone. -/
def zonelessAddr : UDPAddr := { IP := some ⟨[10, 0, 0, 5]⟩, Port := 1001, Zone := "" }

/-- A record whose three fragments carry the same identifier. -/
def sampleRecord : ResponseData :=
  { NodeInfo := some { NodeID := "aabbccddeeff", Network := "", System := "", Owner := none,
                       Hostname := "h", Location := none, Software := "", Hardware := "",
                       VPN := false, Wireless := none },
    Statistics := some { NodeID := "aabbccddeeff", ClientsTotal := 3, Rest := "" },
    Neighbours := some { NodeID := "aabbccddeeff", Entries := "n" } }

/-- A record whose only fragment carries an identifier of three bytes. -/
def shortRecord : ResponseData :=
  { NodeInfo := none, Statistics := some { NodeID := "abc", ClientsTotal := 0, Rest := "" },
    Neighbours := none }

/-- A record whose statistics fragment disagrees with the other two. -/
def mixedRecord : ResponseData :=
  { NodeInfo := none,
    Statistics := some { NodeID := "001122334455", ClientsTotal := 1, Rest := "" },
    Neighbours := some { NodeID := "aabbccddeeff", Entries := "n" } }

/-- A record that has a neighbours and a statistics fragment, no nodeinfo. -/
def noInfoRecord : ResponseData :=
  { NodeInfo := none,
    Statistics := some { NodeID := "aabbccddeeff", ClientsTotal := 1, Rest := "" },
    Neighbours := some { NodeID := "aabbccddeeff", Entries := "n" } }

/-- A record whose only fragment carries an identifier of 6 characters that
take 12 bytes. -/
def umlautRecord : ResponseData :=
  { NodeInfo := none, Statistics := some { NodeID := "ääääää", ClientsTotal := 0, Rest := "" },
    Neighbours := none }

/-- A record whose only fragment carries an identifier of 12 characters that
take 13 bytes. -/
def accentRecord : ResponseData :=
  { NodeInfo := none,
    Statistics := some { NodeID := "aabbccddeefé", ClientsTotal := 0, Rest := "" },
    Neighbours := none }

/-- A node last seen at the given instant, with the given address or none. -/
def sampleNode (lastseen : Time) (address : Option UDPAddr) : Node :=
  { Address := address, Firstseen := 0, Lastseen := lastseen, Online := true,
    Statistics := none, Nodeinfo := none, Neighbours := none }

/-- The instant of the sample multicast phase: one hour. -/
def sampleNow : Time := 60 * Minute

/-- A socket bound in the given zone. -/
def sampleConn (id : Nat) (zone : String) : multicastConn :=
  { Conn := { id := id, LocalAddr := { IP := some ⟨[10, 0, 0, 2]⟩, Port := 1001, Zone := zone } },
    SendRequest := true, MulticastAddress := some ⟨[255, 2, 0, 1]⟩ }

/-- A collector with one socket in zone `eth0` and five nodes: last seen 5,
15 and 10 minutes before the sample instant, at that instant, and 5 minutes
before it without an address. -/
def windowCollector : Collector :=
  { connections := [sampleConn 1 "eth0"], db := false,
    nodes := { list :=
      [("000000000005", sampleNode (sampleNow - 5 * Minute)
          (some { IP := some ⟨[10, 0, 0, 5]⟩, Port := 1001, Zone := "eth0" })),
       ("000000000015", sampleNode (sampleNow - 15 * Minute)
          (some { IP := some ⟨[10, 0, 0, 15]⟩, Port := 1001, Zone := "eth0" })),
       ("000000000010", sampleNode (sampleNow - 10 * Minute)
          (some { IP := some ⟨[10, 0, 0, 10]⟩, Port := 1001, Zone := "eth0" })),
       ("000000000000", sampleNode sampleNow
          (some { IP := some ⟨[10, 0, 0, 0]⟩, Port := 1001, Zone := "eth0" })),
       ("0000000000ff", sampleNode (sampleNow - 5 * Minute) none)] },
    interval := 60 * 1000000000, ticks := 0, trace := [] }

/-- A collector with one socket in zone `eth0` and one node, last seen 5
minutes before the sample instant, whose address has no zone. -/
def zonelessCollector : Collector :=
  { connections := [sampleConn 1 "eth0"], db := false,
    nodes := { list :=
      [("000000000005", sampleNode (sampleNow - 5 * Minute) (some zonelessAddr))] },
    interval := 60 * 1000000000, ticks := 0, trace := [] }

/-- The same node with two sockets, the first of them bound without a zone. -/
def twoSocketCollector : Collector :=
  { zonelessCollector with connections := [sampleConn 0 "", sampleConn 1 "eth0"] }

/-- An interface that sends requests to its own multicast group. -/
def sendingIface : InterfaceConfig :=
  { InterfaceName := "eth0", IPAddress := "10.0.0.1", SendNoRequest := false,
    MulticastAddress := "ff05::2:1001", Port := 1001 }

/-- A collector with a socket that sends requests and one that does not. -/
def mixedSocketCollector : Collector :=
  { connections := [sampleConn 1 "eth0", { sampleConn 2 "eth1" with SendRequest := false }],
    db := false, nodes := { list := [] }, interval := 0, ticks := 0, trace := [] }

/-- A collector with a database and no node. -/
def storingCollector : Collector := { emptyCollector with db := true }

/-- The node of the test of the filter: a nodeinfo with an owner. -/
def ownedNode : Node :=
  { Address := some sampleAddr, Firstseen := 10, Lastseen := 20, Online := true,
    Statistics := some { NodeID := "aabbccddeeff", ClientsTotal := 3, Rest := "" },
    Nodeinfo := some
      { NodeID := "aabbccddeeff", Network := "net", System := "sys",
        Owner := some { Contact := "blub" }, Hostname := "h",
        Location := some { Latitude := 53, Longitude := 8 }, Software := "sw",
        Hardware := "hw", VPN := true, Wireless := some "w" },
    Neighbours := some { NodeID := "aabbccddeeff", Entries := "n" } }

/-- A registry holding the node of the filter test and a node without
nodeinfo. -/
def sampleNodes : Nodes :=
  { list := [("aabbccddeeff", ownedNode), ("000000000005", sampleNode 30 none)] }

/-- A nodelist output writing to `nodelist.json`. -/
def sampleOutput : Nodelist.Output := { path := "nodelist.json" }

/-- An interface whose explicit address is not an IP address. -/
def unparsedIface : InterfaceConfig :=
  { InterfaceName := "eth0", IPAddress := "not-an-address", SendNoRequest := false,
    MulticastAddress := "", Port := 1001 }

/-- An interface without an explicit address and without an address of its
own. -/
def bareIface : InterfaceConfig :=
  { InterfaceName := "lo", IPAddress := "", SendNoRequest := false,
    MulticastAddress := "", Port := 1001 }

/-- A queue of three datagrams: the second does not decode, the third
decodes to a neighbours fragment. -/
def sampleQueue : List Response :=
  [{ Address := some sampleAddr, Raw := [1] },
   { Address := some zonelessAddr, Raw := [0] },
   { Address := some sampleAddr, Raw := [2] }]

end Yanic

/-! # Theorems -/

namespace Yanic

/-! ## Helper lemmas -/

theorem Collector.emit_trace (coll : Collector) (evs : List Event) :
    (coll.emit evs).trace = coll.trace ++ evs := rfl

theorem newEvents_append (before after : Collector) (evs : List Event)
    (h : after.trace = before.trace ++ evs) : newEvents before after = evs := by
  simp [newEvents, h]

theorem find_store_aux (nodeID : String) (node : Node) (l : List (String × Node))
    (h : l.any (fun e => e.1 == nodeID) = true) :
    ((l.map (fun e => if e.1 == nodeID then (nodeID, node) else e)).find?
      (fun e => e.1 == nodeID)).map Prod.snd = some node := by
  induction l with
  | nil => simp at h
  | cons e l ih =>
    by_cases he : e.1 = nodeID
    · simp [he]
    · have h2 : l.any (fun e => e.1 == nodeID) = true := by
        simpa [he] using h
      simpa [he] using ih h2

theorem Nodes.find_store (nodes : Nodes) (nodeID : String) (node : Node) :
    (nodes.store nodeID node).find nodeID = some node := by
  unfold Nodes.store Nodes.find
  split
  · next h => exact find_store_aux nodeID node nodes.list h
  · next h =>
    have h2 : nodes.list.find? (fun e => e.1 == nodeID) = none := by
      rw [List.find?_eq_none]
      intro x hx hp
      apply h
      rw [List.any_eq_true]
      exact ⟨x, hx, hp⟩
    simp [List.find?_append, h2]

theorem nullInconsistent_NodeInfo (nodeID : String) (res : ResponseData) :
    (nullInconsistent nodeID res).NodeInfo
      = res.NodeInfo.filter (fun f => decide (f.NodeID = nodeID)) := by
  obtain ⟨ni, st, nb⟩ := res
  cases ni <;> cases st <;> cases nb <;>
    simp [nullInconsistent, Option.filter] <;> (repeat' split) <;> simp_all

theorem nullInconsistent_Statistics (nodeID : String) (res : ResponseData) :
    (nullInconsistent nodeID res).Statistics
      = res.Statistics.filter (fun f => decide (f.NodeID = nodeID)) := by
  obtain ⟨ni, st, nb⟩ := res
  cases ni <;> cases st <;> cases nb <;>
    simp [nullInconsistent, Option.filter] <;> (repeat' split) <;> simp_all

theorem nullInconsistent_Neighbours (nodeID : String) (res : ResponseData) :
    (nullInconsistent nodeID res).Neighbours
      = res.Neighbours.filter (fun f => decide (f.NodeID = nodeID)) := by
  obtain ⟨ni, st, nb⟩ := res
  cases ni <;> cases st <;> cases nb <;>
    simp [nullInconsistent, Option.filter] <;> (repeat' split) <;> simp_all

theorem updateCalls_append (xs ys : List Event) :
    updateCalls (xs ++ ys) = updateCalls xs ++ updateCalls ys := by
  simp [updateCalls, List.filterMap_append]

theorem updateCalls_insertLinks (links : List Link) (time : Time) :
    updateCalls (links.map (fun link => Event.insertLink link time)) = [] := by
  induction links with
  | nil => rfl
  | cons l ls ih => simp [updateCalls]

theorem updateCalls_databaseCalls (env : Env) (nodes : Nodes) (node : Node) :
    updateCalls (databaseCalls env nodes node) = [] := by
  unfold databaseCalls
  split <;> simp [updateCalls, List.filterMap_append, List.filterMap_map]

/-- The calls and the registry of an accepted `saveResponse`: one `Update`
with the candidate identifier and the filtered record, then the database
calls if there is a database; the registry is the updated one with the
address assigned to the node `Update` returned. -/
theorem saveResponse_accepted (env : Env) (coll : Collector) (addr : Option UDPAddr)
    (res : ResponseData) (h : goLen (candidateNodeID res) = 12) :
    (coll.saveResponse env addr res).trace
        = coll.trace ++ Event.update (candidateNodeID res)
            (nullInconsistent (candidateNodeID res) res) ::
            (if coll.db then
              databaseCalls env (coll.saveResponse env addr res).nodes
                { (coll.nodes.Update (env.clock coll.ticks) (candidateNodeID res)
                    (nullInconsistent (candidateNodeID res) res)).2 with Address := addr }
             else [])
      ∧ (coll.saveResponse env addr res).nodes
        = (coll.nodes.Update (env.clock coll.ticks) (candidateNodeID res)
            (nullInconsistent (candidateNodeID res) res)).1.store (candidateNodeID res)
            { (coll.nodes.Update (env.clock coll.ticks) (candidateNodeID res)
                (nullInconsistent (candidateNodeID res) res)).2 with Address := addr } := by
  unfold Collector.saveResponse
  simp only [h, ne_eq, not_true_eq_false, if_false]
  cases hdb : coll.db
  · simp [hdb]
  · simp only [hdb, if_true]
    split
    · next hn =>
      simp only [Collector.emit_trace, List.append_assoc, List.singleton_append,
        List.cons_append, List.nil_append, databaseCalls, hn]
      exact ⟨rfl, rfl⟩
    · next hn =>
      simp only [Collector.emit_trace, List.append_assoc, List.singleton_append,
        List.cons_append, List.nil_append, databaseCalls, hn]
      trivial

theorem saveResponse_rejected (env : Env) (coll : Collector) (addr : Option UDPAddr)
    (res : ResponseData) (h : goLen (candidateNodeID res) ≠ 12) :
    coll.saveResponse env addr res
      = coll.emit [Event.log (LogMsg.invalidNodeID (candidateNodeID res) addr)] := by
  unfold Collector.saveResponse
  simp [h]

theorem updateCalls_touchesNodes (evs : List Event)
    (h : ∀ e ∈ evs, e.touchesNodes = false) : updateCalls evs = [] := by
  induction evs with
  | nil => rfl
  | cons e es ih =>
    have he := h e (List.mem_cons_self _ _)
    have hes := ih (fun x hx => h x (List.mem_cons_of_mem _ hx))
    cases e <;> simp_all [updateCalls, Event.touchesNodes]

/-! ## C1: a record without a 12-byte identifier never reaches the registry -/

/-- C1: if the candidate identifier of a decoded record (the empty string when
no fragment is present) does not have length exactly 12, `saveResponse` only
writes one log line: the registry is left as it was, so no node is created or
mutated, no address is assigned, and among the calls it makes there is no
`Update`, no `InsertNode` and no `InsertLink`. -/
theorem saveResponse_invalid_id_untouched (env : Env) (coll : Collector)
    (addr : Option UDPAddr) (res : ResponseData)
    (h : goLen (candidateNodeID res) ≠ 12) :
    (coll.saveResponse env addr res).nodes = coll.nodes
    ∧ newEvents coll (coll.saveResponse env addr res)
        = [Event.log (LogMsg.invalidNodeID (candidateNodeID res) addr)]
    ∧ updateCalls (newEvents coll (coll.saveResponse env addr res)) = []
    ∧ (∀ e ∈ newEvents coll (coll.saveResponse env addr res), e.touchesNodes = false)
    ∧ coll.saveResponse env addr res
        = { coll with trace := coll.trace ++
              [Event.log (LogMsg.invalidNodeID (candidateNodeID res) addr)] } := by
  have hs := saveResponse_rejected env coll addr res h
  have hn : newEvents coll (coll.saveResponse env addr res)
      = [Event.log (LogMsg.invalidNodeID (candidateNodeID res) addr)] :=
    newEvents_append _ _ _ (by rw [hs]; rfl)
  refine ⟨by rw [hs]; rfl, hn, ?_, ?_, by rw [hs]; rfl⟩
  · rw [hn]; rfl
  · intro e he
    rw [hn] at he
    simp only [List.mem_singleton] at he
    subst he
    rfl

/-- C1 at a record whose only fragment carries the identifier `abc`. -/
theorem saveResponse_invalid_id_untouched_witness :
    goLen (candidateNodeID shortRecord) ≠ 12
    ∧ (emptyCollector.saveResponse sampleEnv (some sampleAddr) shortRecord).nodes
        = emptyCollector.nodes
    ∧ newEvents emptyCollector
        (emptyCollector.saveResponse sampleEnv (some sampleAddr) shortRecord)
        = [Event.log (LogMsg.invalidNodeID "abc" (some sampleAddr))] :=
  ⟨by decide,
   (saveResponse_invalid_id_untouched sampleEnv emptyCollector (some sampleAddr) shortRecord
      (by decide)).1,
   (saveResponse_invalid_id_untouched sampleEnv emptyCollector (some sampleAddr) shortRecord
      (by decide)).2.1⟩

/-! ## C2: the consistency check nulls exactly the disagreeing fragments -/

/-- C2: for a record whose candidate identifier has length 12, `saveResponse`
calls `Update` with a record each of whose three fragments is the input
fragment when that was present with `NodeID` equal to the candidate, and nil
otherwise; so a disagreeing statistics or neighbours fragment is nulled
without a change to the other fragments, and a record whose three fragments
carry the same identifier is handed on as it came. -/
theorem saveResponse_nulls_inconsistent (env : Env) (coll : Collector)
    (addr : Option UDPAddr) (res : ResponseData)
    (h : goLen (candidateNodeID res) = 12) :
    ∃ r : ResponseData,
      updateCalls (newEvents coll (coll.saveResponse env addr res))
        = [(candidateNodeID res, r)]
      ∧ r.NodeInfo = res.NodeInfo.filter (fun f => decide (f.NodeID = candidateNodeID res))
      ∧ r.Statistics
          = res.Statistics.filter (fun f => decide (f.NodeID = candidateNodeID res))
      ∧ r.Neighbours
          = res.Neighbours.filter (fun f => decide (f.NodeID = candidateNodeID res))
      ∧ (∀ ni st nb, res = ⟨some ni, some st, some nb⟩ →
          st.NodeID = ni.NodeID → nb.NodeID = ni.NodeID → r = res) := by
  obtain ⟨ht, _⟩ := saveResponse_accepted env coll addr res h
  refine ⟨nullInconsistent (candidateNodeID res) res, ?_,
    nullInconsistent_NodeInfo _ _, nullInconsistent_Statistics _ _,
    nullInconsistent_Neighbours _ _, ?_⟩
  · rw [newEvents_append _ _ _ ht]
    have hc : ∀ evs : List Event, updateCalls evs = [] →
        updateCalls (Event.update (candidateNodeID res)
          (nullInconsistent (candidateNodeID res) res) :: evs)
          = [(candidateNodeID res, nullInconsistent (candidateNodeID res) res)] := by
      intro evs hevs
      have := updateCalls_append
        [Event.update (candidateNodeID res) (nullInconsistent (candidateNodeID res) res)] evs
      simp only [List.singleton_append] at this
      rw [this, hevs]
      rfl
    apply hc
    split
    · exact updateCalls_databaseCalls _ _ _
    · rfl
  · intro ni st nb hres h1 h2
    subst hres
    simp [nullInconsistent, candidateNodeID, h1, h2]

/-- C2 at a record whose statistics fragment carries another identifier than
its neighbours fragment: the call of `Update` carries the neighbours only. -/
theorem saveResponse_nulls_inconsistent_witness :
    goLen (candidateNodeID mixedRecord) = 12
    ∧ ∃ r : ResponseData,
      updateCalls (newEvents emptyCollector
          (emptyCollector.saveResponse sampleEnv (some sampleAddr) mixedRecord))
        = [(candidateNodeID mixedRecord, r)]
      ∧ r.NodeInfo
          = mixedRecord.NodeInfo.filter
              (fun f => decide (f.NodeID = candidateNodeID mixedRecord))
      ∧ r.Statistics
          = mixedRecord.Statistics.filter
              (fun f => decide (f.NodeID = candidateNodeID mixedRecord))
      ∧ r.Neighbours
          = mixedRecord.Neighbours.filter
              (fun f => decide (f.NodeID = candidateNodeID mixedRecord))
      ∧ (∀ ni st nb, mixedRecord = ⟨some ni, some st, some nb⟩ →
          st.NodeID = ni.NodeID → nb.NodeID = ni.NodeID → r = mixedRecord) :=
  ⟨by decide,
   saveResponse_nulls_inconsistent sampleEnv emptyCollector (some sampleAddr) mixedRecord
     (by decide)⟩

theorem updateCalls_accepted (env : Env) (coll : Collector) (addr : Option UDPAddr)
    (res : ResponseData) (h : goLen (candidateNodeID res) = 12) :
    updateCalls (newEvents coll (coll.saveResponse env addr res))
      = [(candidateNodeID res, nullInconsistent (candidateNodeID res) res)] := by
  obtain ⟨ht, _⟩ := saveResponse_accepted env coll addr res h
  rw [newEvents_append _ _ _ ht]
  have hc := updateCalls_append
    [Event.update (candidateNodeID res) (nullInconsistent (candidateNodeID res) res)]
    (if coll.db then
      databaseCalls env (coll.saveResponse env addr res).nodes
        { (coll.nodes.Update (env.clock coll.ticks) (candidateNodeID res)
            (nullInconsistent (candidateNodeID res) res)).2 with Address := addr }
     else [])
  simp only [List.singleton_append] at hc
  rw [hc]
  have ht2 : updateCalls
      (if coll.db then
        databaseCalls env (coll.saveResponse env addr res).nodes
          { (coll.nodes.Update (env.clock coll.ticks) (candidateNodeID res)
              (nullInconsistent (candidateNodeID res) res)).2 with Address := addr }
       else []) = [] := by
    split
    · exact updateCalls_databaseCalls _ _ _
    · rfl
  rw [ht2]
  rfl

/-! ## C3: the candidate identifier -/

/-- C3 as stated fails: the identifier `ääääää` is 6 characters long, not
12, yet the record that carries it is not discarded: its encoding takes 12
bytes, which is what `len` counts, so `saveResponse` calls `Update` with it
and the registry gains a node. -/
theorem candidateNodeID_characters_counterexample :
    (candidateNodeID umlautRecord).length = 6
    ∧ (candidateNodeID umlautRecord).length ≠ 12
    ∧ updateCalls (newEvents emptyCollector
        (emptyCollector.saveResponse sampleEnv (some sampleAddr) umlautRecord))
      = [("ääääää", umlautRecord)]
    ∧ (emptyCollector.saveResponse sampleEnv (some sampleAddr) umlautRecord).nodes.find "ääääää"
      ≠ none
    ∧ emptyCollector.saveResponse sampleEnv (some sampleAddr) umlautRecord
      ≠ emptyCollector.emit
          [Event.log (LogMsg.invalidNodeID (candidateNodeID umlautRecord) (some sampleAddr))] := by
  decide

/-- C3, amended: the candidate identifier of `saveResponse` is the `NodeID` of
the nodeinfo fragment if that is present, otherwise that of the neighbours
fragment if present, otherwise that of the statistics fragment if present,
otherwise empty. It is the identifier `saveResponse` acts on: when no
fragment is present or the candidate is not exactly 12 bytes long (the `len`
of the Go string, the length of its UTF-8 encoding) the record is discarded
with one log line that names it, and otherwise it is the identifier handed to
`Update`. -/
theorem candidateNodeID_priority (env : Env) (coll : Collector) (addr : Option UDPAddr)
    (res : ResponseData) :
    (∀ ni, res.NodeInfo = some ni → candidateNodeID res = ni.NodeID)
    ∧ (∀ nb, res.NodeInfo = none → res.Neighbours = some nb →
        candidateNodeID res = nb.NodeID)
    ∧ (∀ st, res.NodeInfo = none → res.Neighbours = none → res.Statistics = some st →
        candidateNodeID res = st.NodeID)
    ∧ (res.NodeInfo = none → res.Neighbours = none → res.Statistics = none →
        candidateNodeID res = "")
    ∧ ((res.NodeInfo = none ∧ res.Neighbours = none ∧ res.Statistics = none)
        ∨ goLen (candidateNodeID res) ≠ 12 →
        coll.saveResponse env addr res
          = coll.emit [Event.log (LogMsg.invalidNodeID (candidateNodeID res) addr)])
    ∧ (goLen (candidateNodeID res) = 12 →
        (updateCalls (newEvents coll (coll.saveResponse env addr res))).map Prod.fst
          = [candidateNodeID res]) := by
  refine ⟨?_, ?_, ?_, ?_, ?_, ?_⟩
  · intro ni h
    simp [candidateNodeID, h]
  · intro nb h1 h2
    simp [candidateNodeID, h1, h2]
  · intro st h1 h2 h3
    simp [candidateNodeID, h1, h2, h3]
  · intro h1 h2 h3
    simp [candidateNodeID, h1, h2, h3]
  · intro h
    apply saveResponse_rejected
    rcases h with ⟨h1, h2, h3⟩ | h
    · have he : candidateNodeID res = "" := by simp [candidateNodeID, h1, h2, h3]
      rw [he]
      decide
    · exact h
  · intro h
    rw [updateCalls_accepted env coll addr res h]
    rfl

/-- C3, amended, at a record without nodeinfo whose neighbours fragment
carries an identifier of 12 bytes: that identifier is the one handed to
`Update`; at an identifier of 6 characters in 12 bytes, which is handed to
`Update` as well; and at an identifier of 12 characters in 13 bytes, whose
record is discarded. -/
theorem candidateNodeID_priority_witness :
    candidateNodeID noInfoRecord = "aabbccddeeff"
    ∧ (updateCalls (newEvents emptyCollector
        (emptyCollector.saveResponse sampleEnv (some sampleAddr) noInfoRecord))).map Prod.fst
        = [candidateNodeID noInfoRecord]
    ∧ (goLen (candidateNodeID umlautRecord) = 12
      ∧ (updateCalls (newEvents emptyCollector
          (emptyCollector.saveResponse sampleEnv (some sampleAddr) umlautRecord))).map Prod.fst
          = [candidateNodeID umlautRecord])
    ∧ ((candidateNodeID accentRecord).length = 12
      ∧ goLen (candidateNodeID accentRecord) = 13
      ∧ emptyCollector.saveResponse sampleEnv (some sampleAddr) accentRecord
          = emptyCollector.emit
              [Event.log
                (LogMsg.invalidNodeID (candidateNodeID accentRecord) (some sampleAddr))]) :=
  ⟨(candidateNodeID_priority sampleEnv emptyCollector (some sampleAddr) noInfoRecord).2.1
      { NodeID := "aabbccddeeff", Entries := "n" } rfl rfl,
   (candidateNodeID_priority sampleEnv emptyCollector (some sampleAddr) noInfoRecord).2.2.2.2.2
      (by decide),
   ⟨by decide,
    (candidateNodeID_priority sampleEnv emptyCollector (some sampleAddr) umlautRecord).2.2.2.2.2
      (by decide)⟩,
   ⟨by decide, by decide,
    (candidateNodeID_priority sampleEnv emptyCollector (some sampleAddr) accentRecord).2.2.2.2.1
      (Or.inr (by decide))⟩⟩

/-! ## C4: one `Update`, then the sender address -/

/-- C4: for a record whose candidate identifier has length 12 and every sender
address, `saveResponse` calls `Update` exactly once, with the candidate
identifier and the consistency-filtered record, on the registry as it was and
at the current clock reading; afterwards the node `Update` returned, stored
under the candidate identifier, is that node with its `Address` set to the
sender address. -/
theorem saveResponse_update_once (env : Env) (coll : Collector) (addr : Option UDPAddr)
    (res : ResponseData) (h : goLen (candidateNodeID res) = 12) :
    updateCalls (newEvents coll (coll.saveResponse env addr res))
      = [(candidateNodeID res, nullInconsistent (candidateNodeID res) res)]
    ∧ (coll.saveResponse env addr res).nodes.find (candidateNodeID res)
      = some { (coll.nodes.Update (env.clock coll.ticks) (candidateNodeID res)
                (nullInconsistent (candidateNodeID res) res)).2 with Address := addr }
    ∧ ((coll.saveResponse env addr res).nodes.find (candidateNodeID res)).map Node.Address
      = some addr := by
  obtain ⟨_, hn⟩ := saveResponse_accepted env coll addr res h
  have hf : (coll.saveResponse env addr res).nodes.find (candidateNodeID res)
      = some { (coll.nodes.Update (env.clock coll.ticks) (candidateNodeID res)
                (nullInconsistent (candidateNodeID res) res)).2 with Address := addr } := by
    rw [hn]
    exact Nodes.find_store _ _ _
  refine ⟨updateCalls_accepted env coll addr res h, hf, ?_⟩
  rw [hf]
  rfl

/-- C4 at a record whose three fragments carry the same identifier. -/
theorem saveResponse_update_once_witness :
    goLen (candidateNodeID sampleRecord) = 12
    ∧ updateCalls (newEvents emptyCollector
        (emptyCollector.saveResponse sampleEnv (some sampleAddr) sampleRecord))
      = [("aabbccddeeff", sampleRecord)]
    ∧ ((emptyCollector.saveResponse sampleEnv (some sampleAddr) sampleRecord).nodes.find
        "aabbccddeeff").map Node.Address = some (some sampleAddr) :=
  ⟨by decide,
   (saveResponse_update_once sampleEnv emptyCollector (some sampleAddr) sampleRecord
      (by decide)).1,
   (saveResponse_update_once sampleEnv emptyCollector (some sampleAddr) sampleRecord
      (by decide)).2.2⟩

/-! ## Traces of the request phases -/

theorem Collector.emit_emit (coll : Collector) (xs ys : List Event) :
    (coll.emit xs).emit ys = coll.emit (xs ++ ys) := by
  simp [Collector.emit, List.append_assoc]

theorem Collector.emit_nil (coll : Collector) : coll.emit [] = coll := by
  simp [Collector.emit]

theorem Collector.emit_connections (coll : Collector) (xs : List Event) :
    (coll.emit xs).connections = coll.connections := rfl

theorem sendPacket_eq (env : Env) (coll : Collector) (conn : UDPConn)
    (destination : Option NetIP) :
    coll.sendPacket env conn destination = coll.emit (sendPacketCalls env conn destination) := by
  unfold Collector.sendPacket sendPacketCalls
  split <;> simp [Collector.emit_emit, *]

theorem sendUnicast_step (env : Env) (address : UDPAddr) :
    (fun (st : Collector × Nat) (conn : multicastConn) =>
      if address.Zone ≠ "" && conn.Conn.LocalAddr.Zone ≠ address.Zone then st
      else (st.1.sendPacket env conn.Conn address.IP, st.2 + 1))
    = (fun (st : Collector × Nat) (conn : multicastConn) =>
      if servesZone address conn
      then (st.1.emit (sendPacketCalls env conn.Conn address.IP), st.2 + 1) else st) := by
  funext st conn
  by_cases hz : address.Zone = "" <;> by_cases hc : conn.Conn.LocalAddr.Zone = address.Zone <;>
    simp [servesZone, hz, hc, sendPacket_eq]

theorem sendUnicast_fold (env : Env) (address : UDPAddr) (conns : List multicastConn)
    (coll : Collector) (k : Nat) :
    conns.foldl
      (fun (st : Collector × Nat) conn =>
        if address.Zone ≠ "" && conn.Conn.LocalAddr.Zone ≠ address.Zone then st
        else (st.1.sendPacket env conn.Conn address.IP, st.2 + 1))
      (coll, k)
    = (coll.emit ((conns.filter (servesZone address)).flatMap
          (fun conn => sendPacketCalls env conn.Conn address.IP)),
       k + (conns.filter (servesZone address)).length) := by
  rw [sendUnicast_step]
  induction conns generalizing coll k with
  | nil => simp [Collector.emit_nil]
  | cons conn conns ih =>
    rw [List.foldl_cons]
    by_cases hs : servesZone address conn = true
    · simp only [hs, if_true]
      rw [ih]
      simp [List.filter_cons, hs, Collector.emit_emit, Nat.add_assoc, Nat.add_comm 1]
    · simp only [hs, Bool.false_eq_true, if_false]
      rw [ih]
      simp [List.filter_cons, hs]

theorem sendUnicast_eq (env : Env) (coll : Collector) (address : UDPAddr) :
    coll.sendUnicast env address
    = (coll.emit ((coll.connections.filter (servesZone address)).flatMap
          (fun conn => sendPacketCalls env conn.Conn address.IP)),
       (coll.connections.filter (servesZone address)).length) := by
  unfold Collector.sendUnicast
  rw [sendUnicast_fold]
  simp

theorem sendUnicastsStep_eq (env : Env) (coll : Collector) (count : Nat) (node : Node) :
    Collector.sendUnicastsStep env (coll, count) node
    = (coll.emit (unicastCalls env coll.connections node),
       count + unicastCount coll.connections node) := by
  unfold Collector.sendUnicastsStep unicastCalls unicastCount
  cases hn : node.Address with
  | none => simp [Collector.emit_nil]
  | some address =>
    simp only [sendUnicast_eq]
    by_cases hl : (coll.connections.filter (servesZone address)).length = 0
    · simp [hl, Collector.emit_emit]
    · simp [hl, Collector.emit_emit]

theorem sendUnicasts_fold (env : Env) (nodes : List Node) (coll : Collector) (count : Nat) :
    nodes.foldl (Collector.sendUnicastsStep env) (coll, count)
    = (coll.emit (nodes.flatMap (unicastCalls env coll.connections)),
       count + (nodes.map (unicastCount coll.connections)).sum) := by
  induction nodes generalizing coll count with
  | nil => simp [Collector.emit_nil]
  | cons node nodes ih =>
    rw [List.foldl_cons, sendUnicastsStep_eq, ih]
    simp [Collector.emit_emit, Collector.emit_connections, Nat.add_assoc]

/-- The calls of `sendUnicasts`: the calls for each selected node, in the
order of the selection, then the summary line. -/
theorem sendUnicasts_newEvents (env : Env) (coll : Collector) (seenBefore : Time) :
    newEvents coll (coll.sendUnicasts env seenBefore)
    = (coll.unicastNodes seenBefore).flatMap (unicastCalls env coll.connections)
      ++ [Event.log (LogMsg.sendingUnicasts
            ((coll.unicastNodes seenBefore).map (unicastCount coll.connections)).sum
            (coll.unicastNodes seenBefore).length)] := by
  apply newEvents_append
  unfold Collector.sendUnicasts
  simp only [sendUnicasts_fold, Collector.emit_emit, Collector.emit_trace, Nat.zero_add]

theorem write_mem_sendPacketCalls (env : Env) (conn : UDPConn) (destination : Option NetIP)
    (c : UDPConn) (payload : String) (a : UDPAddr) :
    Event.writeToUDP c payload a ∈ sendPacketCalls env conn destination
    ↔ c = conn ∧ payload = requestPayload
      ∧ a = { IP := destination, Port := env.port, Zone := conn.LocalAddr.Zone } := by
  unfold sendPacketCalls
  split <;> simp

theorem write_mem_unicastCalls (env : Env) (conns : List multicastConn) (node : Node)
    (c : UDPConn) (payload : String) (a : UDPAddr) :
    Event.writeToUDP c payload a ∈ unicastCalls env conns node
    ↔ ∃ address, node.Address = some address
        ∧ ∃ conn ∈ conns, servesZone address conn = true ∧ c = conn.Conn
          ∧ payload = requestPayload
          ∧ a = { IP := address.IP, Port := env.port, Zone := conn.Conn.LocalAddr.Zone } := by
  unfold unicastCalls
  cases hn : node.Address with
  | none => simp
  | some address =>
    have hlast : Event.writeToUDP c payload a ∉
        (if (conns.filter (servesZone address)).length = 0
          then [Event.log (LogMsg.unableToFindConnection address.Zone)]
          else [Event.sleep (10 * Millisecond)]) := by
      split <;> simp
    simp only [List.mem_append, hlast, or_false, List.mem_flatMap, List.mem_filter,
      write_mem_sendPacketCalls, Option.some.injEq, exists_eq_left']
    constructor
    · rintro ⟨conn, ⟨hc, hs⟩, h1, h2, h3⟩
      exact ⟨conn, hc, hs, h1, h2, h3⟩
    · rintro ⟨conn, hc, hs, h1, h2, h3⟩
      exact ⟨conn, ⟨hc, hs⟩, h1, h2, h3⟩

theorem Minute_eq : Minute = (60000000000 : Int) := by decide

theorem after_sub_iff (a b m : Int) : a > b + -m * 10 ↔ b - 10 * m < a := by
  constructor <;> intro h <;> linarith

theorem window_five (a b : Int) (h : a = b - 5 * 60000000000) :
    b - 10 * 60000000000 < a ∧ a < b := by omega

theorem window_fifteen (a b : Int) (h : a = b - 15 * 60000000000) :
    ¬ (b - 10 * 60000000000 < a) := by omega

theorem window_ten (a b : Int) (h : a = b - 10 * 60000000000) :
    ¬ (b - 10 * 60000000000 < a) := by omega

theorem window_late (a b : Int) (h : b ≤ a) : ¬ (a < b) := by omega

theorem mem_unicastNodes (coll : Collector) (seenBefore : Time) (n : Node) :
    n ∈ coll.unicastNodes seenBefore
    ↔ n ∈ coll.nodes.list.map Prod.snd ∧ seenBefore - 10 * Minute < n.Lastseen
      ∧ n.Lastseen < seenBefore ∧ n.Address ≠ none := by
  unfold Collector.unicastNodes Nodes.Select unicastFilter
  simp only [List.mem_filter, Bool.and_eq_true, decide_eq_true_eq, Option.isSome_iff_ne_none]
  have key : (n.Lastseen > seenBefore + -Minute * 10)
      ↔ (seenBefore - 10 * Minute < n.Lastseen) := after_sub_iff _ _ _
  rw [key]
  tauto

/-! ## C5: the nodes of the unicast phase -/

/-- C5: `sendUnicasts(seenBefore)` selects exactly the registry nodes `n` with
`seenBefore - 10 minutes < n.Lastseen < seenBefore`, both bounds strict, and a
non-nil address. A node with an address last seen 5 minutes before
`seenBefore` is selected; a node last seen 15 minutes or exactly 10 minutes
before, or at `seenBefore` or later, or with a nil address, is not. Every
unicast request is written for a selected node, to the IP of its address, so
that no request is written when no node is selected; and `sendOnce` passes
the clock reading it took before the multicast phase as `seenBefore`. -/
theorem sendUnicasts_selects_window (env : Env) (coll : Collector) (seenBefore : Time) :
    (∀ n, n ∈ coll.unicastNodes seenBefore
        ↔ n ∈ coll.nodes.list.map Prod.snd ∧ seenBefore - 10 * Minute < n.Lastseen
          ∧ n.Lastseen < seenBefore ∧ n.Address ≠ none)
    ∧ (∀ n, n ∈ coll.nodes.list.map Prod.snd → n.Address ≠ none →
        n.Lastseen = seenBefore - 5 * Minute → n ∈ coll.unicastNodes seenBefore)
    ∧ (∀ n, n.Lastseen = seenBefore - 15 * Minute → n ∉ coll.unicastNodes seenBefore)
    ∧ (∀ n, n.Lastseen = seenBefore - 10 * Minute → n ∉ coll.unicastNodes seenBefore)
    ∧ (∀ n, seenBefore ≤ n.Lastseen → n ∉ coll.unicastNodes seenBefore)
    ∧ (∀ n, n.Address = none → n ∉ coll.unicastNodes seenBefore)
    ∧ (∀ c payload a,
        Event.writeToUDP c payload a ∈ newEvents coll (coll.sendUnicasts env seenBefore) →
        ∃ n ∈ coll.unicastNodes seenBefore, ∃ address,
          n.Address = some address ∧ a.IP = address.IP)
    ∧ (coll.unicastNodes seenBefore = [] →
        writeCalls (newEvents coll (coll.sendUnicasts env seenBefore)) = [])
    ∧ coll.sendOnce env
        = ((({ coll with ticks := coll.ticks + 1 } : Collector).sendMulticast env).emit
            [Event.sleep (Int.tdiv
              (({ coll with ticks := coll.ticks + 1 } : Collector).sendMulticast env).interval
              2)]).sendUnicasts env (env.clock coll.ticks) := by
  refine ⟨mem_unicastNodes coll seenBefore, ?_, ?_, ?_, ?_, ?_, ?_, ?_, ?_⟩
  · intro n hm ha hl
    rw [mem_unicastNodes]
    rw [Minute_eq] at *
    exact ⟨hm, (window_five _ _ hl).1, (window_five _ _ hl).2, ha⟩
  · intro n hl hn
    rw [mem_unicastNodes] at hn
    rw [Minute_eq] at *
    exact window_fifteen _ _ hl hn.2.1
  · intro n hl hn
    rw [mem_unicastNodes] at hn
    rw [Minute_eq] at *
    exact window_ten _ _ hl hn.2.1
  · intro n hl hn
    rw [mem_unicastNodes] at hn
    exact window_late _ _ hl hn.2.2.1
  · intro n ha hn
    rw [mem_unicastNodes] at hn
    exact hn.2.2.2 ha
  · intro c payload a he
    rw [sendUnicasts_newEvents] at he
    simp only [List.mem_append, List.mem_flatMap, List.mem_singleton] at he
    rcases he with ⟨n, hn, hw⟩ | he
    · rw [write_mem_unicastCalls] at hw
      obtain ⟨address, hadr, conn, _, _, _, _, ha⟩ := hw
      exact ⟨n, hn, address, hadr, by rw [ha]⟩
    · cases he
  · intro hnil
    rw [sendUnicasts_newEvents, hnil]
    rfl
  · rfl

/-- C5 on a registry of five nodes: only the node with an address last seen
5 minutes before the multicast phase is selected, and the one request written
goes to its IP. -/
theorem sendUnicasts_selects_window_witness :
    sampleNode (sampleNow - 5 * Minute)
        (some { IP := some ⟨[10, 0, 0, 5]⟩, Port := 1001, Zone := "eth0" })
      ∈ windowCollector.unicastNodes sampleNow
    ∧ sampleNode (sampleNow - 15 * Minute)
        (some { IP := some ⟨[10, 0, 0, 15]⟩, Port := 1001, Zone := "eth0" })
      ∉ windowCollector.unicastNodes sampleNow
    ∧ writeCalls (newEvents windowCollector (windowCollector.sendUnicasts sampleEnv sampleNow))
      = [Event.writeToUDP (sampleConn 1 "eth0").Conn requestPayload
          { IP := some ⟨[10, 0, 0, 5]⟩, Port := 1001, Zone := "eth0" }] :=
  ⟨(sendUnicasts_selects_window sampleEnv windowCollector sampleNow).2.1 _
      (by decide) (by decide) rfl,
   (sendUnicasts_selects_window sampleEnv windowCollector sampleNow).2.2.1 _ rfl,
   by decide⟩

/-! ## C6: the sockets of a unicast request -/

theorem writeCalls_append (xs ys : List Event) :
    writeCalls (xs ++ ys) = writeCalls xs ++ writeCalls ys := by
  simp [writeCalls, List.filter_append]

theorem writeCalls_sendPacketCalls (env : Env) (conn : UDPConn) (destination : Option NetIP) :
    writeCalls (sendPacketCalls env conn destination)
    = [Event.writeToUDP conn requestPayload
        { IP := destination, Port := env.port, Zone := conn.LocalAddr.Zone }] := by
  unfold sendPacketCalls
  split <;> simp [writeCalls]

theorem writeCalls_requests (env : Env) (destination : Option NetIP)
    (conns : List multicastConn) :
    writeCalls (conns.flatMap (fun conn => sendPacketCalls env conn.Conn destination))
    = conns.map (fun conn => Event.writeToUDP conn.Conn requestPayload
        { IP := destination, Port := env.port, Zone := conn.Conn.LocalAddr.Zone }) := by
  induction conns with
  | nil => rfl
  | cons conn conns ih =>
    rw [List.flatMap_cons, writeCalls_append, writeCalls_sendPacketCalls, ih]
    rfl

theorem writeCalls_unicastCalls (env : Env) (conns : List multicastConn) (node : Node)
    (address : UDPAddr) (h : node.Address = some address) :
    writeCalls (unicastCalls env conns node)
    = (conns.filter (servesZone address)).map (fun conn =>
        Event.writeToUDP conn.Conn requestPayload
          { IP := address.IP, Port := env.port, Zone := conn.Conn.LocalAddr.Zone }) := by
  unfold unicastCalls
  simp only [h]
  rw [writeCalls_append, writeCalls_requests]
  split <;> simp [writeCalls]

/-- C6 as stated fails: a selected node whose address has no zone is sent a
request on a socket bound in zone `eth0`, whose zone is not the node's; and
with a second socket bound without a zone, exactly one socket has the node's
zone but two requests are written. -/
theorem sendUnicasts_zone_counterexample :
    (sampleNode (sampleNow - 5 * Minute) (some zonelessAddr)
        ∈ zonelessCollector.unicastNodes sampleNow
      ∧ (sampleConn 1 "eth0").Conn.LocalAddr.Zone ≠ zonelessAddr.Zone
      ∧ Event.writeToUDP (sampleConn 1 "eth0").Conn requestPayload
          { IP := zonelessAddr.IP, Port := 1001, Zone := "eth0" }
        ∈ newEvents zonelessCollector (zonelessCollector.sendUnicasts sampleEnv sampleNow))
    ∧ ((twoSocketCollector.connections.filter
          (fun conn => decide (conn.Conn.LocalAddr.Zone = zonelessAddr.Zone))).length = 1
      ∧ (writeCalls (newEvents twoSocketCollector
          (twoSocketCollector.sendUnicasts sampleEnv sampleNow))).length = 2) := by
  decide

/-- C6, amended: the calls of `sendUnicasts` are, for each selected node in
turn, the calls of the unicast phase for that node, then the summary line. For
a selected node a request to the node's IP is written on a socket if and only
if the node's address has no zone or the zone of the socket's local address
is the zone of the node's address; the node is sent as many requests as there
are such sockets, so exactly one if there is exactly one and none if there is
none, in which case the only call made for it is the log line. -/
theorem sendUnicasts_serves_zone (env : Env) (coll : Collector) (seenBefore : Time) :
    newEvents coll (coll.sendUnicasts env seenBefore)
      = (coll.unicastNodes seenBefore).flatMap (unicastCalls env coll.connections)
        ++ [Event.log (LogMsg.sendingUnicasts
              ((coll.unicastNodes seenBefore).map (unicastCount coll.connections)).sum
              (coll.unicastNodes seenBefore).length)]
    ∧ ∀ n ∈ coll.unicastNodes seenBefore, ∃ address, n.Address = some address
        ∧ (∀ conn ∈ coll.connections,
            Event.writeToUDP conn.Conn requestPayload
                { IP := address.IP, Port := env.port, Zone := conn.Conn.LocalAddr.Zone }
              ∈ unicastCalls env coll.connections n
            ↔ (address.Zone = "" ∨ conn.Conn.LocalAddr.Zone = address.Zone))
        ∧ (writeCalls (unicastCalls env coll.connections n)).length
            = (coll.connections.filter (fun conn =>
                decide (address.Zone = "" ∨ conn.Conn.LocalAddr.Zone = address.Zone))).length
        ∧ ((coll.connections.filter (fun conn =>
                decide (address.Zone = "" ∨ conn.Conn.LocalAddr.Zone = address.Zone))).length = 1
            → (writeCalls (unicastCalls env coll.connections n)).length = 1)
        ∧ ((∀ conn ∈ coll.connections,
                ¬ (address.Zone = "" ∨ conn.Conn.LocalAddr.Zone = address.Zone))
            → unicastCalls env coll.connections n
                = [Event.log (LogMsg.unableToFindConnection address.Zone)]) := by
  refine ⟨sendUnicasts_newEvents env coll seenBefore, ?_⟩
  intro n hn
  rw [mem_unicastNodes] at hn
  obtain ⟨address, hadr⟩ := Option.ne_none_iff_exists'.mp hn.2.2.2
  have hserves : (fun conn : multicastConn =>
      decide (address.Zone = "" ∨ conn.Conn.LocalAddr.Zone = address.Zone))
      = servesZone address := by
    funext conn
    simp [servesZone]
  have hlen : (writeCalls (unicastCalls env coll.connections n)).length
      = (coll.connections.filter (fun conn =>
          decide (address.Zone = "" ∨ conn.Conn.LocalAddr.Zone = address.Zone))).length := by
    rw [writeCalls_unicastCalls env coll.connections n address hadr, hserves,
      List.length_map]
  refine ⟨address, hadr, ?_, hlen, ?_, ?_⟩
  · intro conn hc
    rw [write_mem_unicastCalls]
    constructor
    · rintro ⟨address', hadr', conn', _, hs, hconn, _, _⟩
      rw [hadr] at hadr'
      cases hadr'
      rw [hconn]
      simpa [servesZone] using hs
    · intro hz
      exact ⟨address, hadr, conn, hc, by simpa [servesZone] using hz, rfl, rfl, rfl⟩
  · intro h1
    rw [hlen, h1]
  · intro hnone
    have hf : coll.connections.filter (servesZone address) = [] := by
      rw [List.filter_eq_nil_iff]
      intro conn hc hs
      exact hnone conn hc (by simpa [servesZone] using hs)
    unfold unicastCalls
    simp [hadr, hf]

/-- C6, amended, on the registry of five nodes with one socket in the zone
of the selected node: one request, on that socket. -/
theorem sendUnicasts_serves_zone_witness :
    newEvents windowCollector (windowCollector.sendUnicasts sampleEnv sampleNow)
      = [Event.writeToUDP (sampleConn 1 "eth0").Conn requestPayload
            { IP := some ⟨[10, 0, 0, 5]⟩, Port := 1001, Zone := "eth0" },
         Event.sleep (10 * Millisecond),
         Event.log (LogMsg.sendingUnicasts 1 1)] :=
  (sendUnicasts_serves_zone sampleEnv windowCollector sampleNow).1.trans (by decide)

/-! ## C7: starting the collector -/

theorem Start_started (coll : Collector) (interval : Duration) (h : coll.interval ≠ 0) :
    coll.Start interval = (coll, Outcome.panicked "already started") := by
  simp [Collector.Start, h]

theorem Start_fresh (coll : Collector) (interval : Duration) (h : coll.interval = 0)
    (hpos : 0 < interval) :
    coll.Start interval
      = ({ coll with interval := interval, trace := coll.trace ++ [Event.goSender] },
          Outcome.returned) := by
  simp [Collector.Start, h, not_le.mpr hpos]

theorem Start_later (c : Collector) (hne : c.interval ≠ 0) (later : List Duration)
    (acc : List Outcome) :
    later.foldl
      (fun (st : Collector × List Outcome) i =>
        ((st.1.Start i).1, st.2 ++ [(st.1.Start i).2])) (c, acc)
    = (c, acc ++ later.map (fun _ => Outcome.panicked "already started")) := by
  induction later generalizing acc with
  | nil => simp
  | cons i later ih =>
    rw [List.foldl_cons, Start_started c i hne, ih]
    simp

/-- C7: `Start(interval)` panics if and only if the collector was already
started (its interval is non-zero) or `interval <= 0`. A first call with a
positive interval stores that interval and returns; after it every later
call panics whatever its argument and changes nothing; a call on a collector
that is not started, rejected for a non-positive interval, leaves the
collector as it was, hence not started. -/
theorem Start_panics_iff (coll : Collector) (interval : Duration) :
    ((∃ msg, (coll.Start interval).2 = Outcome.panicked msg)
        ↔ (coll.interval ≠ 0 ∨ interval ≤ 0))
    ∧ (coll.interval = 0 → 0 < interval →
        (coll.Start interval).2 = Outcome.returned
        ∧ (coll.Start interval).1.interval = interval
        ∧ ∀ later : List Duration,
            later.foldl
              (fun (st : Collector × List Outcome) i =>
                ((st.1.Start i).1, st.2 ++ [(st.1.Start i).2]))
              ((coll.Start interval).1, [])
            = ((coll.Start interval).1,
                later.map (fun _ => Outcome.panicked "already started")))
    ∧ (coll.interval ≠ 0 →
        coll.Start interval = (coll, Outcome.panicked "already started"))
    ∧ (coll.interval = 0 → interval ≤ 0 →
        coll.Start interval = (coll, Outcome.panicked "invalid collector interval")
        ∧ (coll.Start interval).1.interval = 0) := by
  refine ⟨?_, ?_, Start_started coll interval, ?_⟩
  · by_cases h : coll.interval = 0
    · by_cases hi : interval ≤ 0
      · simp [Collector.Start, h, hi]
      · simp [Collector.Start, h, hi]
    · simp [Collector.Start, h]
  · intro h hpos
    have hne : (coll.Start interval).1.interval ≠ 0 := by
      rw [Start_fresh coll interval h hpos]
      exact ne_of_gt hpos
    refine ⟨by rw [Start_fresh coll interval h hpos], by rw [Start_fresh coll interval h hpos],
      fun later => ?_⟩
    simpa using Start_later _ hne later []
  · intro h hi
    have : coll.Start interval = (coll, Outcome.panicked "invalid collector interval") := by
      simp [Collector.Start, h, hi]
    rw [this]
    exact ⟨rfl, h⟩

/-- C7 on a fresh collector: a start with one millisecond returns, a second
start with any interval panics. -/
theorem Start_panics_iff_witness :
    (emptyCollector.Start Millisecond).2 = Outcome.returned
    ∧ (emptyCollector.Start Millisecond).1.interval = Millisecond
    ∧ ((emptyCollector.Start Millisecond).1.Start 5).2 = Outcome.panicked "already started"
    ∧ emptyCollector.Start 0
        = (emptyCollector, Outcome.panicked "invalid collector interval") :=
  ⟨((Start_panics_iff emptyCollector Millisecond).2.1 rfl (by decide)).1,
   ((Start_panics_iff emptyCollector Millisecond).2.1 rfl (by decide)).2.1,
   by decide,
   ((Start_panics_iff emptyCollector 0).2.2.2 rfl (by decide)).1⟩

/-! ## C8: the multicast phase -/

theorem sendMulticast_fold (env : Env) (conns : List multicastConn) (coll : Collector) :
    conns.foldl
      (fun c conn =>
        if conn.SendRequest then c.sendPacket env conn.Conn conn.MulticastAddress else c)
      coll
    = coll.emit ((conns.filter (fun conn => conn.SendRequest)).flatMap
        (fun conn => sendPacketCalls env conn.Conn conn.MulticastAddress)) := by
  induction conns generalizing coll with
  | nil => simp [Collector.emit_nil]
  | cons conn conns ih =>
    rw [List.foldl_cons, ih]
    by_cases hs : conn.SendRequest = true
    · simp [hs, sendPacket_eq, Collector.emit_emit]
    · simp [hs]

theorem sendMulticast_newEvents (env : Env) (coll : Collector) :
    newEvents coll (coll.sendMulticast env)
    = Event.log LogMsg.sendingMulticasts ::
        (coll.connections.filter (fun conn => conn.SendRequest)).flatMap
          (fun conn => sendPacketCalls env conn.Conn conn.MulticastAddress) := by
  apply newEvents_append
  unfold Collector.sendMulticast
  simp only [Collector.emit_connections, sendMulticast_fold, Collector.emit_emit,
    Collector.emit_trace, List.singleton_append]

theorem listenUDP_returned (env : Env) (coll : Collector) (iface : InterfaceConfig)
    (opened : Collector) (h : coll.listenUDP env iface = (opened, Outcome.returned)) :
    ∃ conn, opened.connections = coll.connections ++
          [{ Conn := conn, SendRequest := !iface.SendNoRequest,
             MulticastAddress := env.ParseIP
               (if iface.MulticastAddress = "" then env.multicastAddressDefault
                else iface.MulticastAddress) }] := by
  unfold Collector.listenUDP at h
  cases hb : bindAddress env iface with
  | error e => simp [hb] at h
  | ok addr =>
    simp only [hb] at h
    cases hl : env.ListenUDP { IP := addr, Port := iface.Port, Zone := iface.InterfaceName } with
    | error e => simp [hl] at h
    | ok conn =>
      simp only [hl, Prod.mk.injEq, and_true] at h
      refine ⟨conn, ?_⟩
      rw [← h]
      by_cases hm : iface.MulticastAddress = ""
      · simp [Collector.emit, hm]
      · simp [Collector.emit, hm]
theorem writeCalls_multicast (env : Env) (conns : List multicastConn) :
    writeCalls (conns.flatMap
      (fun conn => sendPacketCalls env conn.Conn conn.MulticastAddress))
    = conns.map (fun conn => Event.writeToUDP conn.Conn requestPayload
        { IP := conn.MulticastAddress, Port := env.port,
          Zone := conn.Conn.LocalAddr.Zone }) := by
  induction conns with
  | nil => rfl
  | cons conn conns ih =>
    rw [List.flatMap_cons, writeCalls_append, writeCalls_sendPacketCalls, ih]
    rfl

/-- C8: `sendMulticast` writes exactly one request on each connection that has
`SendRequest` set, in the order of the connections, to that connection's
multicast address, and none on the others; every request carries the payload
`GET nodeinfo statistics neighbours`. A connection that `listenUDP` opens for
an interface has `SendRequest` set exactly when the interface has
`SendNoRequest` unset, and its multicast address is the parsed configured
address, or the parsed default when none is configured. -/
theorem sendMulticast_requests (env : Env) (coll : Collector) :
    writeCalls (newEvents coll (coll.sendMulticast env))
      = (coll.connections.filter (fun conn => conn.SendRequest)).map
          (fun conn => Event.writeToUDP conn.Conn "GET nodeinfo statistics neighbours"
            { IP := conn.MulticastAddress, Port := env.port,
              Zone := conn.Conn.LocalAddr.Zone })
    ∧ (∀ conn ∈ coll.connections, conn.SendRequest = false →
        ∀ payload a, Event.writeToUDP conn.Conn payload a
            ∈ newEvents coll (coll.sendMulticast env) →
          ∃ other ∈ coll.connections, other.SendRequest = true ∧ other.Conn = conn.Conn)
    ∧ (∀ (iface : InterfaceConfig) (opened : Collector),
        coll.listenUDP env iface = (opened, Outcome.returned) →
        ∃ conn, opened.connections = coll.connections ++
          [{ Conn := conn, SendRequest := !iface.SendNoRequest,
             MulticastAddress := env.ParseIP
               (if iface.MulticastAddress = "" then env.multicastAddressDefault
                else iface.MulticastAddress) }]) := by
  refine ⟨?_, ?_, ?_⟩
  · rw [sendMulticast_newEvents]
    have : writeCalls (Event.log LogMsg.sendingMulticasts ::
        (coll.connections.filter (fun conn => conn.SendRequest)).flatMap
          (fun conn => sendPacketCalls env conn.Conn conn.MulticastAddress))
        = writeCalls ((coll.connections.filter (fun conn => conn.SendRequest)).flatMap
          (fun conn => sendPacketCalls env conn.Conn conn.MulticastAddress)) := rfl
    rw [this, writeCalls_multicast]
    rfl
  · intro conn _ _ payload a he
    rw [sendMulticast_newEvents] at he
    simp only [List.mem_cons, List.mem_flatMap, List.mem_filter,
      write_mem_sendPacketCalls] at he
    rcases he with he | ⟨other, ⟨ho, hs⟩, hc, _, _⟩
    · cases he
    · exact ⟨other, ho, hs, hc.symm⟩
  · intro iface opened h
    exact listenUDP_returned env coll iface opened h

/-- C8 on a collector with a sending socket and a silent one: one request,
on the sending socket, to its multicast address. -/
theorem sendMulticast_requests_witness :
    writeCalls (newEvents mixedSocketCollector (mixedSocketCollector.sendMulticast sampleEnv))
      = [Event.writeToUDP (sampleConn 1 "eth0").Conn "GET nodeinfo statistics neighbours"
          { IP := some ⟨[255, 2, 0, 1]⟩, Port := 1001, Zone := "eth0" }]
    ∧ ∃ conn, (emptyCollector.listenUDP sampleEnv sendingIface).1.connections
        = emptyCollector.connections ++
          [{ Conn := conn, SendRequest := true,
             MulticastAddress := some ⟨[255, 5, 0, 0, 0, 0, 0, 0, 0, 0, 0, 0, 0, 2, 16, 1]⟩ }] :=
  ⟨(sendMulticast_requests sampleEnv mixedSocketCollector).1.trans (by decide),
   (sendMulticast_requests sampleEnv emptyCollector).2.2 sendingIface
      (emptyCollector.listenUDP sampleEnv sendingIface).1 (by decide)⟩

/-! ## C9: the bind address of a socket -/

theorem pickUnicast_fold (env : Env) (linklocal : Bool) (addresses : List IfaceAddr)
    (acc : Option NetIP) :
    ∀ ip, addresses.foldl
      (fun ip addr =>
        match addr with
        | IfaceAddr.other => ip
        | IfaceAddr.ipnet a =>
          if (!linklocal && env.IsGlobalUnicast a) || (linklocal && env.IsLinkLocalUnicast a)
          then some a else ip)
      acc = some ip →
      acc = some ip ∨ (IfaceAddr.ipnet ip ∈ addresses
        ∧ (if linklocal then env.IsLinkLocalUnicast ip else env.IsGlobalUnicast ip) = true) := by
  induction addresses generalizing acc with
  | nil => intro ip h; exact Or.inl h
  | cons addr addresses ih =>
    intro ip h
    rw [List.foldl_cons] at h
    rcases ih _ ip h with h1 | ⟨h1, h2⟩
    · cases addr with
      | other => exact Or.inl h1
      | ipnet a =>
        simp only at h1
        split at h1
        · next hc =>
          cases h1
          right
          refine ⟨List.mem_cons_self _ _, ?_⟩
          cases linklocal <;> simpa using hc
        · exact Or.inl h1
    · exact Or.inr ⟨List.mem_cons_of_mem _ h1, h2⟩

theorem pickUnicast_some (env : Env) (linklocal : Bool) (addresses : List IfaceAddr)
    (ip : NetIP) (h : pickUnicast env linklocal addresses = some ip) :
    IfaceAddr.ipnet ip ∈ addresses
      ∧ (if linklocal then env.IsLinkLocalUnicast ip else env.IsGlobalUnicast ip) = true := by
  rcases pickUnicast_fold env linklocal addresses none ip h with h1 | h1
  · cases h1
  · exact h1

/-- The interface path of `listenUDP`: without an explicit address the bind
address is an address of the named interface, link-local unicast when no
multicast group is configured and global unicast when one is; when none can
be resolved `listenUDP` panics without a call of `net.ListenUDP`. -/
theorem listenUDP_interface_path (env : Env) (coll : Collector) (iface : InterfaceConfig)
    (h : iface.IPAddress = "") :
    (∀ err, bindAddress env iface = Except.error err →
        coll.listenUDP env iface = (coll, Outcome.panicked err))
    ∧ (∀ addr, bindAddress env iface = Except.ok addr →
        ∃ ip addresses, addr = some ip
          ∧ env.InterfaceAddrs iface.InterfaceName = Except.ok addresses
          ∧ IfaceAddr.ipnet ip ∈ addresses
          ∧ (if iface.MulticastAddress = "" then env.IsLinkLocalUnicast ip
             else env.IsGlobalUnicast ip) = true) := by
  constructor
  · intro err hb
    unfold Collector.listenUDP
    rw [hb]
  · intro addr hb
    unfold bindAddress getUnicastAddr at hb
    simp only [h, ne_eq, not_true_eq_false, if_false] at hb
    cases ha : env.InterfaceAddrs iface.InterfaceName with
    | error e => simp [ha] at hb
    | ok addresses =>
      simp only [ha] at hb
      cases hp : pickUnicast env (iface.MulticastAddress == "") addresses with
      | none => simp [hp] at hb
      | some ip =>
        simp only [hp, Except.ok.injEq] at hb
        obtain ⟨h1, h2⟩ := pickUnicast_some env _ addresses ip hp
        refine ⟨ip, addresses, hb.symm, rfl, h1, ?_⟩
        by_cases hm : iface.MulticastAddress = ""
        · simpa [hm] using h2
        · simpa [hm] using h2

/-- The explicit path of `listenUDP`: with an explicit address the bind
address is whatever `net.ParseIP` returns, nil included, and `net.ListenUDP`
is called with it. -/
theorem listenUDP_explicit_path (env : Env) (coll : Collector) (iface : InterfaceConfig)
    (h : iface.IPAddress ≠ "") :
    bindAddress env iface = Except.ok (env.ParseIP iface.IPAddress)
    ∧ (coll.listenUDP env iface).1.trace.take (coll.trace.length + 1)
      = coll.trace ++ [Event.listenUDP
          { IP := env.ParseIP iface.IPAddress, Port := iface.Port,
            Zone := iface.InterfaceName }] := by
  have hb : bindAddress env iface = Except.ok (env.ParseIP iface.IPAddress) := by
    simp [bindAddress, h]
  refine ⟨hb, ?_⟩
  unfold Collector.listenUDP
  rw [hb]
  simp only
  split <;> simp [Collector.emit, List.take_append_eq_append_take]

/-- C9 at an interface whose explicit address does not parse: `net.ParseIP`
returns nil, and `listenUDP` does not panic; it calls `net.ListenUDP` with a
nil IP, which binds to every address, and registers the socket. On the
interface path the same failure to resolve an address does panic, as for the
interface `lo` that has no address. -/
theorem listenUDP_unparsed_address :
    sampleEnv.ParseIP unparsedIface.IPAddress = none
    ∧ emptyCollector.listenUDP sampleEnv unparsedIface
      = ({ emptyCollector with
            connections :=
              [{ Conn := { id := 7, LocalAddr := { IP := none, Port := 1001, Zone := "eth0" } },
                 SendRequest := true,
                 MulticastAddress :=
                   some ⟨[255, 2, 0, 0, 0, 0, 0, 0, 0, 0, 0, 0, 0, 2, 16, 1]⟩ }],
            trace :=
              [Event.listenUDP { IP := none, Port := 1001, Zone := "eth0" },
               Event.setReadBuffer
                 { id := 7, LocalAddr := { IP := none, Port := 1001, Zone := "eth0" } } 8192,
               Event.goReceiver
                 { id := 7, LocalAddr := { IP := none, Port := 1001, Zone := "eth0" } }] },
          Outcome.returned)
    ∧ emptyCollector.listenUDP sampleEnv bareIface
      = (emptyCollector, Outcome.panicked "unable to find a unicast address for lo") := by
  decide
/-! ## C10: the decoder loop -/

theorem dropDecodeLogs_saveResponse (env : Env) (coll : Collector) (addr : Option UDPAddr)
    (res : ResponseData) :
    (coll.saveResponse env addr res).dropDecodeLogs
      = (coll.dropDecodeLogs.saveResponse env addr res).dropDecodeLogs := by
  unfold Collector.saveResponse
  by_cases h : goLen (candidateNodeID res) = 12
  · simp only [h, ne_eq, not_true_eq_false, if_false]
    cases hdb : coll.db
    · simp [Collector.dropDecodeLogs, hdb, List.filter_append]
    · simp only [Collector.dropDecodeLogs, hdb, if_true]
      split <;> simp [Collector.emit, List.filter_append]
  · simp [h, Collector.dropDecodeLogs, Collector.emit, List.filter_append]

theorem dropDecodeLogs_emit_decodeLog (coll : Collector) (addr : Option UDPAddr)
    (err : String) :
    (coll.emit [Event.log (LogMsg.unableToDecode addr err)]).dropDecodeLogs
      = coll.dropDecodeLogs := by
  simp [Collector.dropDecodeLogs, Collector.emit, List.filter_append, Event.isDecodeLog]

theorem dropDecodeLogs_foldl (env : Env) (calls : List (Option UDPAddr × ResponseData))
    (coll : Collector) :
    (calls.foldl (fun c p => c.saveResponse env p.1 p.2) coll).dropDecodeLogs
      = (calls.foldl (fun c p => c.saveResponse env p.1 p.2) coll.dropDecodeLogs).dropDecodeLogs := by
  induction calls generalizing coll with
  | nil =>
    simp [Collector.dropDecodeLogs, List.filter_filter]
  | cons p calls ih =>
    rw [List.foldl_cons, List.foldl_cons, ih, dropDecodeLogs_saveResponse, ← ih]

theorem parser_dropDecodeLogs (env : Env) (queue : List Response) (coll : Collector) :
    (coll.parser env queue).dropDecodeLogs
      = ((parsedResponses env queue).foldl (fun c p => c.saveResponse env p.1 p.2)
          coll).dropDecodeLogs := by
  induction queue generalizing coll with
  | nil => rfl
  | cons obj queue ih =>
    unfold Collector.parser parsedResponses
    cases hp : obj.parse env with
    | error err =>
      simp only [List.filterMap_cons, hp]
      rw [ih, dropDecodeLogs_foldl, dropDecodeLogs_emit_decodeLog, ← dropDecodeLogs_foldl]
      rfl
    | ok data =>
      simp only [List.filterMap_cons, hp, List.foldl_cons]
      rw [ih]
      rfl

theorem saveResponse_trace_extends (env : Env) (coll : Collector) (addr : Option UDPAddr)
    (res : ResponseData) :
    ∃ evs, (coll.saveResponse env addr res).trace = coll.trace ++ evs
      ∧ evs.filter Event.isDecodeLog = [] := by
  by_cases h : goLen (candidateNodeID res) = 12
  · obtain ⟨ht, _⟩ := saveResponse_accepted env coll addr res h
    refine ⟨_, ht, ?_⟩
    cases coll.db
    · simp [Event.isDecodeLog]
    · simp only [if_true, databaseCalls]
      split <;> simp [Event.isDecodeLog, List.filter_append, List.filter_map]
  · rw [saveResponse_rejected env coll addr res h]
    exact ⟨_, rfl, by simp [Event.isDecodeLog]⟩

theorem parser_decodeLogs (env : Env) (queue : List Response) (coll : Collector) :
    ∃ evs, (coll.parser env queue).trace = coll.trace ++ evs
      ∧ evs.filter Event.isDecodeLog = decodeFailures env queue := by
  induction queue generalizing coll with
  | nil => exact ⟨[], by simp [Collector.parser], rfl⟩
  | cons obj queue ih =>
    unfold Collector.parser decodeFailures
    cases hp : obj.parse env with
    | error err =>
      simp only [List.filterMap_cons, hp]
      obtain ⟨evs, h1, h2⟩ := ih (coll.emit [Event.log (LogMsg.unableToDecode obj.Address err)])
      refine ⟨Event.log (LogMsg.unableToDecode obj.Address err) :: evs, ?_, ?_⟩
      · rw [h1]
        simp [Collector.emit]
      · simp only [List.filter_cons, Event.isDecodeLog, if_true, h2]
        rfl
    | ok data =>
      simp only [List.filterMap_cons, hp]
      obtain ⟨evs, h1, h2⟩ := ih (coll.saveResponse env obj.Address data)
      obtain ⟨evs0, h3, h4⟩ := saveResponse_trace_extends env coll obj.Address data
      refine ⟨evs0 ++ evs, ?_, ?_⟩
      · rw [h1, h3, List.append_assoc]
      · rw [List.filter_append, h4, h2]
        rfl

theorem parser_cons (env : Env) (coll : Collector) (obj : Response) (queue : List Response) :
    coll.parser env (obj :: queue)
      = match obj.parse env with
        | Except.error err =>
          (coll.emit [Event.log (LogMsg.unableToDecode obj.Address err)]).parser env queue
        | Except.ok data => (coll.saveResponse env obj.Address data).parser env queue := by
  rfl

theorem parser_append (env : Env) (first second : List Response) (coll : Collector) :
    coll.parser env (first ++ second) = (coll.parser env first).parser env second := by
  induction first generalizing coll with
  | nil => rfl
  | cons obj first ih =>
    rw [List.cons_append, parser_cons, parser_cons]
    cases obj.parse env with
    | error err => exact ih _
    | ok data => exact ih _

/-- C10: for every queue of datagrams `parser` ends, and what it leaves behind
(registry, clock readings, and every call except its own decode log lines) is
what calling `saveResponse` leaves behind when called, in arrival order, once
for each datagram whose parse succeeds, with that datagram's sender address
and decoded record; every such call leaves an `Update` or an invalid-identifier
log line in the trace. The decode log lines it writes are one for each
datagram whose parse fails, in arrival order. After a datagram whose parse
fails the rest of the queue is processed as it would have been anyway. -/
theorem parser_saves_parsed (env : Env) (coll : Collector) (queue : List Response) :
    (coll.parser env queue).dropDecodeLogs
      = ((parsedResponses env queue).foldl (fun c p => c.saveResponse env p.1 p.2)
          coll).dropDecodeLogs
    ∧ (newEvents coll (coll.parser env queue)).filter Event.isDecodeLog
      = decodeFailures env queue
    ∧ (∀ first obj rest err, queue = first ++ obj :: rest →
        obj.parse env = Except.error err →
        coll.parser env queue
          = ((coll.parser env first).emit
              [Event.log (LogMsg.unableToDecode obj.Address err)]).parser env rest
        ∧ parsedResponses env queue
          = parsedResponses env first ++ parsedResponses env rest) := by
  refine ⟨parser_dropDecodeLogs env queue coll, ?_, ?_⟩
  · obtain ⟨evs, h1, h2⟩ := parser_decodeLogs env queue coll
    rw [newEvents_append _ _ _ h1, h2]
  · intro first obj rest err hq hp
    subst hq
    constructor
    · rw [parser_append, parser_cons, hp]
    · simp [parsedResponses, List.filterMap_append, hp]

/-- C10 on a queue of three datagrams of which the second does not decode:
the first is rejected by `saveResponse` for its missing identifier, the second
is logged and dropped, the third reaches `Update`. -/
theorem parser_saves_parsed_witness :
    parsedResponses sampleEnv sampleQueue
      = [(some sampleAddr, { NodeInfo := none, Statistics := none, Neighbours := none }),
         (some sampleAddr,
          { NodeInfo := none, Statistics := none,
            Neighbours := some { NodeID := "aabbccddeeff", Entries := "n" } })]
    ∧ (newEvents emptyCollector (emptyCollector.parser sampleEnv sampleQueue)).filter
        Event.isDecodeLog
      = [Event.log (LogMsg.unableToDecode (some zonelessAddr) "flate: corrupt input")]
    ∧ newEvents emptyCollector (emptyCollector.parser sampleEnv sampleQueue)
      = [Event.log (LogMsg.invalidNodeID "" (some sampleAddr)),
         Event.log (LogMsg.unableToDecode (some zonelessAddr) "flate: corrupt input"),
         Event.update "aabbccddeeff"
          { NodeInfo := none, Statistics := none,
            Neighbours := some { NodeID := "aabbccddeeff", Entries := "n" } }] :=
  ⟨by decide,
   (parser_saves_parsed sampleEnv emptyCollector sampleQueue).2.1.trans (by decide),
   by decide⟩

/-! ## C11: the filter no_owner -/

theorem noowner_Apply_strips (heap : NodeHeap) (node : Nat) (n : Node) (nodeinfo : NodeInfo)
    (h : heap[node]? = some n) (hi : n.Nodeinfo = some nodeinfo) :
    noowner.Apply { has := true } heap node
      = some (heap ++ [{ n with Nodeinfo := some { nodeinfo with Owner := none } }],
              heap.length) := by
  unfold noowner.Apply
  simp only [h, hi]

theorem noowner_Apply_keeps (no : noowner) (heap : NodeHeap) (node : Nat) (n : Node)
    (h : heap[node]? = some n) (hk : no.has = false ∨ n.Nodeinfo = none) :
    no.Apply heap node = some (heap, node) := by
  unfold noowner.Apply
  simp only [h]
  rcases hk with hk | hk
  · rw [hk]
    cases n.Nodeinfo <;> rfl
  · rw [hk]

theorem heap_get_append_left (heap : NodeHeap) (extra : Node) (i : Nat) (m : Node)
    (h : heap[i]? = some m) : (heap ++ [extra])[i]? = some m := by
  have hi : i < heap.length := by
    by_contra hc
    rw [List.getElem?_eq_none (Nat.le_of_not_lt hc)] at h
    cases h
  rw [List.getElem?_append_left hi, h]

theorem heap_get_append_new (heap : NodeHeap) (extra : Node) :
    (heap ++ [extra])[heap.length]? = some extra := by
  simp

/-- C11: for every node in memory, the filter built from `true` returns a
pointer to a node, allocated anew when the input has a `Nodeinfo`: its
`Nodeinfo.Owner` is nil and every other field (`Address`, `Firstseen`,
`Lastseen`, `Online`, `Statistics`, `Neighbours`, and `NodeID`, `Network`,
`System`, `Hostname`, `Location`, `Software`, `Hardware`, `VPN`, `Wireless` of
`Nodeinfo`) equals the input's, while the input node, like every node that was
in memory, is as it was. The filter built from `false`, or applied to a node
without `Nodeinfo`, returns the input pointer and leaves the memory alone, so
the owner is kept. -/
theorem noowner_Apply_frame (heap : NodeHeap) (node : Nat) (n : Node)
    (h : heap[node]? = some n) :
    noowner.build (FilterConfig.bool true) = Except.ok { has := true }
    ∧ noowner.build (FilterConfig.bool false) = Except.ok { has := false }
    ∧ (∀ nodeinfo, n.Nodeinfo = some nodeinfo →
        ∃ heap' node' n' nodeinfo',
          noowner.Apply { has := true } heap node = some (heap', node')
          ∧ heap'[node']? = some n'
          ∧ n'.Nodeinfo = some nodeinfo'
          ∧ nodeinfo'.Owner = none
          ∧ nodeinfo'.NodeID = nodeinfo.NodeID ∧ nodeinfo'.Network = nodeinfo.Network
          ∧ nodeinfo'.System = nodeinfo.System ∧ nodeinfo'.Hostname = nodeinfo.Hostname
          ∧ nodeinfo'.Location = nodeinfo.Location ∧ nodeinfo'.Software = nodeinfo.Software
          ∧ nodeinfo'.Hardware = nodeinfo.Hardware ∧ nodeinfo'.VPN = nodeinfo.VPN
          ∧ nodeinfo'.Wireless = nodeinfo.Wireless
          ∧ n'.Address = n.Address ∧ n'.Firstseen = n.Firstseen ∧ n'.Lastseen = n.Lastseen
          ∧ n'.Online = n.Online ∧ n'.Statistics = n.Statistics
          ∧ n'.Neighbours = n.Neighbours
          ∧ heap'[node]? = some n
          ∧ (∀ (i : Nat) (m : Node), heap[i]? = some m → heap'[i]? = some m))
    ∧ (n.Nodeinfo = none → noowner.Apply { has := true } heap node = some (heap, node))
    ∧ noowner.Apply { has := false } heap node = some (heap, node) := by
  refine ⟨rfl, rfl, ?_, ?_, ?_⟩
  · intro nodeinfo hi
    refine ⟨_, _, _, _, noowner_Apply_strips heap node n nodeinfo h hi,
      heap_get_append_new heap _, rfl, rfl, rfl, rfl, rfl, rfl, rfl, rfl, rfl, rfl, rfl,
      rfl, rfl, rfl, rfl, rfl, rfl, heap_get_append_left heap _ node n h, ?_⟩
    intro i m hm
    exact heap_get_append_left heap _ i m hm
  · intro hn
    exact noowner_Apply_keeps _ heap node n h (Or.inr hn)
  · exact noowner_Apply_keeps _ heap node n h (Or.inl rfl)

/-- C11 on the node of the filter's test, which has an owner. -/
theorem noowner_Apply_frame_witness :
    [ownedNode][0]? = some ownedNode
    ∧ (∃ heap' node' n' nodeinfo',
          noowner.Apply { has := true } [ownedNode] 0 = some (heap', node')
          ∧ heap'[node']? = some n'
          ∧ n'.Nodeinfo = some nodeinfo'
          ∧ nodeinfo'.Owner = none
          ∧ nodeinfo'.Hostname = "h"
          ∧ heap'[0]? = some ownedNode)
    ∧ noowner.Apply { has := false } [ownedNode] 0 = some ([ownedNode], 0) :=
  ⟨rfl,
   by
     obtain ⟨heap', node', n', nodeinfo', h1, h2, h3, h4, _, _, _, h5, _, _, _, _, _, _, _, _,
       _, _, _, h6, _⟩ :=
       (noowner_Apply_frame [ownedNode] 0 ownedNode rfl).2.2.1 _ rfl
     exact ⟨heap', node', n', nodeinfo', h1, h2, h3, h4, h5, h6⟩,
   (noowner_Apply_frame [ownedNode] 0 ownedNode rfl).2.2.2.2⟩

/-! ## C12: traversals under the read lock -/

theorem readLockDiscipline_insertLinks (links : List Link) (time : Time) (held : Nat) :
    readLockDiscipline (held + 1)
      (links.map (fun link => Event.insertLink link time) ++ [Event.runlock]) 
    = readLockDiscipline held [] := by
  induction links with
  | nil => simp [readLockDiscipline]
  | cons link links ih =>
    simp only [List.map_cons, List.cons_append, readLockDiscipline, Event.traverses]
    simpa using ih

theorem readLockDiscipline_databaseCalls (env : Env) (nodes : Nodes) (node : Node) :
    readLockDiscipline 0 (databaseCalls env nodes node) = true := by
  unfold databaseCalls
  split
  · simp only [readLockDiscipline, Event.traverses]
    have := readLockDiscipline_insertLinks (env.NodeLinks nodes node) node.Lastseen 0
    simp only [Nat.zero_add] at this
    simp [this, readLockDiscipline]
  · simp [readLockDiscipline, Event.traverses]

theorem newEvents_saveResponse (env : Env) (coll : Collector) (addr : Option UDPAddr)
    (res : ResponseData) :
    newEvents coll (coll.saveResponse env addr res)
      = if goLen (candidateNodeID res) = 12 then
          Event.update (candidateNodeID res) (nullInconsistent (candidateNodeID res) res) ::
            (if coll.db then
              databaseCalls env (coll.saveResponse env addr res).nodes
                { (coll.nodes.Update (env.clock coll.ticks) (candidateNodeID res)
                    (nullInconsistent (candidateNodeID res) res)).2 with Address := addr }
             else [])
        else [Event.log (LogMsg.invalidNodeID (candidateNodeID res) addr)] := by
  by_cases h : goLen (candidateNodeID res) = 12
  · rw [if_pos h]
    exact newEvents_append _ _ _ (saveResponse_accepted env coll addr res h).1
  · rw [if_neg h]
    apply newEvents_append
    rw [saveResponse_rejected env coll addr res h]
    rfl

theorem readLockDiscipline_update (held : Nat) (nodeID : String) (res : ResponseData)
    (rest : List Event) :
    readLockDiscipline held (Event.update nodeID res :: rest)
      = readLockDiscipline held rest := by
  simp [readLockDiscipline, Event.traverses]

theorem saveResponse_readLockDiscipline (env : Env) (coll : Collector)
    (addr : Option UDPAddr) (res : ResponseData) :
    readLockDiscipline 0 (newEvents coll (coll.saveResponse env addr res)) = true := by
  rw [newEvents_saveResponse]
  by_cases h : goLen (candidateNodeID res) = 12
  · rw [if_pos h, readLockDiscipline_update]
    cases coll.db
    · rfl
    · exact readLockDiscipline_databaseCalls env _ _
  · rw [if_neg h]
    rfl

theorem databaseCalls_shape (env : Env) (nodes : Nodes) (node : Node) :
    databaseCalls env nodes node = [Event.insertNode node]
    ∨ databaseCalls env nodes node
      = [Event.insertNode node] ++ Event.rlock :: Event.nodeLinks node ::
          ((env.NodeLinks nodes node).map (fun link => Event.insertLink link node.Lastseen)
            ++ [Event.runlock]) := by
  unfold databaseCalls
  split
  · right; rfl
  · left; rfl

/-- C12: the calls of `saveResponse` keep the read-lock discipline: every call
of `NodeLinks` and every `InsertLink` comes while the read lock is held, every
`RUnlock` gives up a lock that is held, and no lock is held at the end. More
precisely its calls either contain no lock operation and no traversal at all,
or end with one `RLock`, the call of `NodeLinks`, the `InsertLink` of each of
its links and one `RUnlock`, nothing before the `RLock` being a lock operation
or a traversal. The nodelist output's `Save` takes the read lock, runs
`transform` over the node list, writes the snapshot and then releases the
lock, once. -/
theorem read_lock_held (env : Env) (coll : Collector) (addr : Option UDPAddr)
    (res : ResponseData) (o : Nodelist.Output) (nodes : Nodes) (ticks : Nat) :
    readLockDiscipline 0 (newEvents coll (coll.saveResponse env addr res)) = true
    ∧ ((∀ e ∈ newEvents coll (coll.saveResponse env addr res),
          e ≠ Event.rlock ∧ e ≠ Event.runlock ∧ e.traverses = false)
        ∨ ∃ before node links,
            newEvents coll (coll.saveResponse env addr res)
              = before ++ Event.rlock :: Event.nodeLinks node ::
                  (links.map (fun link => Event.insertLink link node.Lastseen)
                    ++ [Event.runlock])
            ∧ links = env.NodeLinks (coll.saveResponse env addr res).nodes node
            ∧ ∀ e ∈ before, e ≠ Event.rlock ∧ e ≠ Event.runlock ∧ e.traverses = false)
    ∧ o.Save env nodes ticks
        = [Event.rlock, Event.rangeNodes,
           Event.saveJSON (Nodelist.transform (env.clock ticks) nodes) o.path, Event.runlock]
    ∧ readLockDiscipline 0 (o.Save env nodes ticks) = true := by
  refine ⟨saveResponse_readLockDiscipline env coll addr res, ?_, rfl, ?_⟩
  · rw [newEvents_saveResponse]
    by_cases h : goLen (candidateNodeID res) = 12
    · rw [if_pos h]
      cases coll.db
      · left
        intro e he
        simp only [Bool.false_eq_true, if_false, List.mem_singleton] at he
        subst he
        simp [Event.traverses]
      · simp only [if_true]
        rcases databaseCalls_shape env (coll.saveResponse env addr res).nodes
            { (coll.nodes.Update (env.clock coll.ticks) (candidateNodeID res)
                (nullInconsistent (candidateNodeID res) res)).2 with Address := addr }
          with hs | hs
        · left
          rw [hs]
          intro e he
          simp only [List.mem_cons, List.mem_singleton, List.not_mem_nil, or_false] at he
          rcases he with he | he <;> subst he <;> simp [Event.traverses]
        · right
          rw [hs]
          refine ⟨[Event.update _ _, Event.insertNode _], _, _, rfl, rfl, ?_⟩
          intro e he
          simp only [List.mem_cons, List.mem_singleton, List.not_mem_nil, or_false] at he
          rcases he with he | he <;> subst he <;> simp [Event.traverses]
    · rw [if_neg h]
      left
      intro e he
      simp only [List.mem_singleton] at he
      subst he
      simp [Event.traverses]
  · simp [Nodelist.Output.Save, readLockDiscipline, Event.traverses]

/-- C12 on a collector with a database and a record with neighbours, and on
a registry of two nodes; a trace that walks the node list without the lock, or
keeps the lock, or unlocks twice, does not pass. -/
theorem read_lock_held_witness :
    readLockDiscipline 0
        (newEvents storingCollector
          (storingCollector.saveResponse sampleEnv (some sampleAddr) sampleRecord)) = true
    ∧ Event.rlock ∈ newEvents storingCollector
        (storingCollector.saveResponse sampleEnv (some sampleAddr) sampleRecord)
    ∧ Event.insertLink
          { SourceID := "aabbccddeeff", SourceAddress := "a", TargetID := "ffeeddccbbaa",
            TargetAddress := "b", TQ := 255 } 1000
        ∈ newEvents storingCollector
          (storingCollector.saveResponse sampleEnv (some sampleAddr) sampleRecord)
    ∧ sampleOutput.Save sampleEnv sampleNodes 0
        = [Event.rlock, Event.rangeNodes,
           Event.saveJSON
             { Version := "1.0.1", Timestamp := 1000,
               List := [{ ID := "aabbccddeeff", Name := "h",
                          Position := some { Lat := 53, Long := 8 },
                          Status := { Online := true, LastContact := 20, Clients := 3 } }] }
             "nodelist.json",
           Event.runlock]
    ∧ readLockDiscipline 0 [Event.rangeNodes] = false
    ∧ readLockDiscipline 0 [Event.rlock, Event.rangeNodes] = false
    ∧ readLockDiscipline 0 [Event.rlock, Event.runlock, Event.runlock] = false :=
  ⟨(read_lock_held sampleEnv storingCollector (some sampleAddr) sampleRecord sampleOutput
      sampleNodes 0).1,
   by decide, by decide,
   (read_lock_held sampleEnv storingCollector (some sampleAddr) sampleRecord sampleOutput
      sampleNodes 0).2.2.1.trans (by decide),
   by decide, by decide, by decide⟩

/-! ## C13: the source of the candidate survives -/

theorem goLen_empty : goLen "" ≠ 12 := by decide

theorem nullInconsistent_candidate (res : ResponseData) :
    (nullInconsistent (candidateNodeID res) res).NodeInfo = res.NodeInfo
    ∧ (res.NodeInfo = none →
        (nullInconsistent (candidateNodeID res) res).Neighbours = res.Neighbours)
    ∧ (res.NodeInfo = none → res.Neighbours = none →
        (nullInconsistent (candidateNodeID res) res).Statistics = res.Statistics) := by
  obtain ⟨ni, st, nb⟩ := res
  rw [nullInconsistent_NodeInfo, nullInconsistent_Neighbours, nullInconsistent_Statistics]
  cases ni <;> cases nb <;> cases st <;> simp [candidateNodeID, Option.filter]

/-- C13: in `saveResponse` the fragment the candidate identifier was taken
from is never nulled by the consistency check; in particular a present
nodeinfo fragment always survives it, the nodeinfo of the filtered record
being that of the input. So every record handed to `Update` comes with an
identifier of 12 bytes, has at least one non-nil fragment, and each of its
non-nil fragments has that identifier as its `NodeID`. -/
theorem candidate_fragment_survives (env : Env) (coll : Collector) (addr : Option UDPAddr)
    (res : ResponseData) :
    (∀ ni, res.NodeInfo = some ni →
        (nullInconsistent (candidateNodeID res) res).NodeInfo = some ni)
    ∧ (∀ nb, res.NodeInfo = none → res.Neighbours = some nb →
        (nullInconsistent (candidateNodeID res) res).Neighbours = some nb)
    ∧ (∀ st, res.NodeInfo = none → res.Neighbours = none → res.Statistics = some st →
        (nullInconsistent (candidateNodeID res) res).Statistics = some st)
    ∧ (∀ nodeID r,
        (nodeID, r) ∈ updateCalls (newEvents coll (coll.saveResponse env addr res)) →
        goLen nodeID = 12
        ∧ r.NodeInfo = res.NodeInfo
        ∧ (r.NodeInfo ≠ none ∨ r.Neighbours ≠ none ∨ r.Statistics ≠ none)
        ∧ (∀ f, r.NodeInfo = some f → f.NodeID = nodeID)
        ∧ (∀ f, r.Neighbours = some f → f.NodeID = nodeID)
        ∧ (∀ f, r.Statistics = some f → f.NodeID = nodeID)) := by
  obtain ⟨h1, h2, h3⟩ := nullInconsistent_candidate res
  refine ⟨?_, ?_, ?_, ?_⟩
  · intro ni h
    rw [h1, h]
  · intro nb hn h
    rw [h2 hn, h]
  · intro st hn hb h
    rw [h3 hn hb, h]
  · intro nodeID r hmem
    by_cases h : goLen (candidateNodeID res) = 12
    · rw [updateCalls_accepted env coll addr res h] at hmem
      simp only [List.mem_singleton, Prod.mk.injEq] at hmem
      obtain ⟨hid, hr⟩ := hmem
      subst hid
      subst hr
      refine ⟨h, h1, ?_, ?_, ?_, ?_⟩
      · by_cases hn : res.NodeInfo = none
        · by_cases hb : res.Neighbours = none
          · right; right
            rw [h3 hn hb]
            intro hs
            apply goLen_empty
            have : candidateNodeID res = "" := by
              simp [candidateNodeID, hn, hb, hs]
            rw [← this]
            exact h
          · right; left
            rw [h2 hn]
            exact hb
        · left
          rw [h1]
          exact hn
      · intro f hf
        rw [nullInconsistent_NodeInfo] at hf
        simp only [Option.filter_eq_some] at hf
        simpa using hf.2
      · intro f hf
        rw [nullInconsistent_Neighbours] at hf
        simp only [Option.filter_eq_some] at hf
        simpa using hf.2
      · intro f hf
        rw [nullInconsistent_Statistics] at hf
        simp only [Option.filter_eq_some] at hf
        simpa using hf.2
    · exfalso
      have hs := saveResponse_rejected env coll addr res h
      have hn : newEvents coll (coll.saveResponse env addr res)
          = [Event.log (LogMsg.invalidNodeID (candidateNodeID res) addr)] :=
        newEvents_append _ _ _ (by rw [hs]; rfl)
      rw [hn] at hmem
      simp [updateCalls] at hmem

/-- C13 at a record without nodeinfo whose statistics disagree with its
neighbours: the neighbours fragment, source of the candidate, survives. -/
theorem candidate_fragment_survives_witness :
    (nullInconsistent (candidateNodeID mixedRecord) mixedRecord).Neighbours
      = some { NodeID := "aabbccddeeff", Entries := "n" }
    ∧ (goLen "aabbccddeeff" = 12
        ∧ (nullInconsistent "aabbccddeeff" mixedRecord).NodeInfo = mixedRecord.NodeInfo) :=
  ⟨(candidate_fragment_survives sampleEnv emptyCollector (some sampleAddr) mixedRecord).2.1
      _ rfl rfl,
   ⟨((candidate_fragment_survives sampleEnv emptyCollector (some sampleAddr) mixedRecord).2.2.2
      "aabbccddeeff" (nullInconsistent "aabbccddeeff" mixedRecord) (by decide)).1,
    ((candidate_fragment_survives sampleEnv emptyCollector (some sampleAddr) mixedRecord).2.2.2
      "aabbccddeeff" (nullInconsistent "aabbccddeeff" mixedRecord) (by decide)).2.1⟩⟩

/-! ## The selection of the unicast phase and the `Online` flag -/

/-- The comment above the selection in `sendUnicasts` speaks of online nodes,
but the closure does not read `Online`: whether a node is selected does not
depend on that flag, so a node that is offline, has an address and was last
seen inside the window is selected. -/
theorem unicastFilter_ignores_online (seenAfter seenBefore : Time) (n : Node)
    (online : Bool) :
    unicastFilter seenAfter seenBefore { n with Online := online }
      = unicastFilter seenAfter seenBefore n := rfl

end Yanic
